import Mathlib

/-!
Verification development for the Sync2Sheets repository (src/sync.py,
src/main.py).  The repository contains two variant implementations of the
same `Sync2Sheets` class: the one in `src/sync.py` (embedded below in
namespace `SyncPy`) and the one in `src/main.py` (namespace `MainPy`).
Python JSON dictionaries are embedded as the inductive `JVal`; Python
exceptions are embedded as `Except`; the remote HTTP calls and the sheet
write calls are embedded as explicit oracles and write traces.
-/

/-- JSON values as manipulated by the Python code after `response.json()`:
`null`/`True`/`False`, strings, ints, floats, lists and dicts.  Python ints
and floats are kept apart because `str()` renders them differently. -/
inductive JVal where
  | null : JVal
  | bool : Bool → JVal
  | str : String → JVal
  | int : Int → JVal
  | float : ℚ → JVal
  | arr : List JVal → JVal
  | obj : List (String × JVal) → JVal

/-- Python truthiness (`if not val`): `None`, `False`, `""`, `0`, `0.0`,
`[]` and the empty dict are falsy. -/
def truthy : JVal → Bool
  | .null => false
  | .bool b => b
  | .str s => s != ""
  | .int n => n != 0
  | .float q => q != 0
  | .arr xs => !xs.isEmpty
  | .obj kvs => !kvs.isEmpty

mutual
/-- Structural depth of a JSON value, used as recursion fuel where the
Python code recurses through a nested value. -/
def jdepth : JVal → Nat
  | .arr xs => jdepthList xs + 1
  | .obj kvs => jdepthPairs kvs + 1
  | _ => 1

/-- Depth of a JSON list. -/
def jdepthList : List JVal → Nat
  | [] => 0
  | x :: xs => max (jdepth x) (jdepthList xs)

/-- Depth of a JSON dict. -/
def jdepthPairs : List (String × JVal) → Nat
  | [] => 0
  | (_, v) :: kvs => max (jdepth v) (jdepthPairs kvs)
end

/-- Python `dict.get(key)` on a JSON object (keys are unique in parsed
JSON, so the first binding is the binding). -/
def jget (v : JVal) (k : String) : Option JVal :=
  match v with
  | .obj kvs => kvs.lookup k
  | _ => none

/-- Whitespace characters removed by Python `str.strip()` (the ASCII ones;
spreadsheet cells cannot contain the exotic unicode spaces). -/
def isPySpace (c : Char) : Bool :=
  c = ' ' ∨ c = '\t' ∨ c = '\n' ∨ c = '\x0d' ∨ c = '\x0b' ∨ c = '\x0c'

/-- Python `str.strip()`. -/
def pyStrip (s : String) : String :=
  String.mk (((s.toList.dropWhile isPySpace).reverse.dropWhile isPySpace).reverse)

/-- Uppercase one character (ASCII: the cell values at issue are ASCII or
the check-mark glyph, which `upper()` leaves unchanged). -/
def pyCharUpper (c : Char) : Char :=
  if 'a' ≤ c ∧ c ≤ 'z' then Char.ofNat (c.toNat - 32) else c

/-- Python `str.upper()`. -/
def pyUpper (s : String) : String := String.mk (s.toList.map pyCharUpper)

/-- Python `s.replace(ch, "")` for a one-character pattern (the code only
deletes "," and "$"). -/
def pyRemoveChar (ch : Char) (s : String) : String :=
  String.mk (s.toList.filter (fun c => c ≠ ch))

/-- Python `s.split(",")`. -/
def splitCommaAux : List Char → List Char → List String
  | [], cur => [String.mk cur.reverse]
  | c :: rest, cur =>
    if c = ',' then String.mk cur.reverse :: splitCommaAux rest []
    else splitCommaAux rest (c :: cur)

/-- Python `s.split(",")` over a string. -/
def pySplitComma (s : String) : List String := splitCommaAux s.toList []

/-- Prefix test over character lists. -/
def listStartsWith : List Char → List Char → Bool
  | [], _ => true
  | _ :: _, [] => false
  | p :: ps, c :: cs => p = c && listStartsWith ps cs

/-- Python `s.startswith(pre)`. -/
def pyStartsWith (pre s : String) : Bool := listStartsWith pre.toList s.toList

/-- Python `s[i]` as an optional character (code-point indexed). -/
def pyCharAt (s : String) (i : Nat) : Option Char := s.toList.get? i

/-- Python `len(s)` (code points). -/
def pyLen (s : String) : Nat := s.toList.length

/-- Python `s[:n]` (code-point slice). -/
def pyTake (s : String) (n : Nat) : String := String.mk (s.toList.take n)

/-- Digit list to natural number. -/
def digitsVal (ds : List Char) : Nat :=
  ds.foldl (fun a c => a * 10 + (c.toNat - 48)) 0

/-- Model of Python `float(text)` on decimal literals: optional surrounding
whitespace, optional sign, digits with an optional fractional part and an
optional exponent; anything else raises `ValueError`, modelled as `none`.
Special values (`inf`, `nan`) and underscore digit grouping are outside the
inputs this repository can meet and are not modelled. -/
def pyFloat (s : String) : Option ℚ :=
  let t := (pyStrip s).toList
  let sgn : ℚ := match t with
    | '-' :: _ => -1
    | _ => 1
  let t := match t with
    | '+' :: r => r
    | '-' :: r => r
    | r => r
  let ip := t.takeWhile Char.isDigit
  let t1 := t.dropWhile Char.isDigit
  let fp := match t1 with
    | '.' :: r => r.takeWhile Char.isDigit
    | _ => []
  let t2 := match t1 with
    | '.' :: r => r.dropWhile Char.isDigit
    | r => r
  if ip = [] ∧ fp = [] then none
  else
    let mant : ℚ := (digitsVal (ip ++ fp) : ℚ) / (10 : ℚ) ^ fp.length
    match t2 with
    | [] => some (sgn * mant)
    | e :: r =>
      if e = 'e' ∨ e = 'E' then
        let esgn : ℤ := match r with
          | '-' :: _ => -1
          | _ => 1
        let r1 := match r with
          | '+' :: rr => rr
          | '-' :: rr => rr
          | rr => rr
        let ed := r1.takeWhile Char.isDigit
        let rest := r1.dropWhile Char.isDigit
        if ed = [] ∨ rest ≠ [] then none
        else some (sgn * mant * (10 : ℚ) ^ (esgn * (digitsVal ed : ℤ)))
      else none

/-- Search for the least scale `k` (up to the fuel) with `q * 10 ^ k`
integral; used only to render floats the way Python `str()` does. -/
def findScaleAux (q : ℚ) : Nat → Nat → Option Nat
  | k, 0 => if (q * (10 : ℚ) ^ k).den = 1 then some k else none
  | k, fuel + 1 => if (q * (10 : ℚ) ^ k).den = 1 then some k else findScaleAux q (k + 1) fuel

/-- Python `str()` of a float with a finite decimal expansion ("42.5",
"42.0").  Floats whose shortest repr is scientific are approximated; no
claim of this development evaluates the function on such a value. -/
def pyStrFloat (q : ℚ) : String :=
  match findScaleAux q 0 17 with
  | some k =>
    let ds := toString (q * (10 : ℚ) ^ k).num.natAbs
    let ds := if ds.length ≤ k then String.mk (List.replicate (k + 1 - ds.length) '0') ++ ds else ds
    let ip := ds.take (ds.length - k)
    let fp := ds.drop (ds.length - k)
    (if q < 0 then "-" else "") ++ ip ++ "." ++ (if fp = "" then "0" else fp)
  | none => toString q

mutual
/-- Python `str()` of a JSON value (`str(None) = "None"`, dicts and lists
render with `repr` of their elements).  Only the scalar cases are ever hit
by the claims; the container cases are a faithful-shape rendering. -/
def pyStr : JVal → String
  | .null => "None"
  | .bool true => "True"
  | .bool false => "False"
  | .str s => s
  | .int n => toString n
  | .float q => pyStrFloat q
  | .arr xs => "[" ++ String.intercalate ", " (pyReprList xs) ++ "]"
  | .obj kvs => "\x7b" ++ String.intercalate ", " (pyReprPairs kvs) ++ "\x7d"

/-- Python `repr` of each list element (strings get quoted). -/
def pyReprList : List JVal → List String
  | [] => []
  | x :: xs => pyRepr x :: pyReprList xs

/-- Python `repr` of each dict binding. -/
def pyReprPairs : List (String × JVal) → List String
  | [] => []
  | (k, v) :: kvs => ("\x27" ++ k ++ "\x27: " ++ pyRepr v) :: pyReprPairs kvs

/-- Python `repr` of a JSON value (as it appears inside `str()` of a
container). -/
def pyRepr : JVal → String
  | .str s => "\x27" ++ s ++ "\x27"
  | .null => "None"
  | .bool true => "True"
  | .bool false => "False"
  | .int n => toString n
  | .float q => pyStrFloat q
  | .arr xs => "[" ++ String.intercalate ", " (pyReprList xs) ++ "]"
  | .obj kvs => "\x7b" ++ String.intercalate ", " (pyReprPairs kvs) ++ "\x7d"
end

/-- Value returned by Python when the code hands a raw JSON value straight
back where a cell string is expected: strings pass through, anything else
is rendered by `str()` (a shape normalisation; Notion never sends
non-string values in those positions). -/
def strOrPyStr : JVal → String
  | .str s => s
  | v => pyStr v

/-- Join generator of the shape `sep.join(t.get(key, dflt) for t in xs)`:
a non-dict element raises `AttributeError`, a non-string field value makes
`join` raise `TypeError`; both are `.error`. -/
def joinWithKey (sep key dflt : String) (xs : List JVal) : Except Unit String :=
  let step := fun (acc : Except Unit (List String)) (t : JVal) =>
    match acc with
    | .error e => .error e
    | .ok a =>
      match t with
      | .obj kvs =>
        match (kvs.lookup key).getD (.str dflt) with
        | .str s => .ok (a ++ [s])
        | _ => .error ()
      | _ => .error ()
  (xs.foldl step (.ok [])).map (String.intercalate sep)

/-- Coerce to a Python list, raising (`TypeError`/`AttributeError` in the
callers) otherwise. -/
def asArr : JVal → Except Unit (List JVal)
  | .arr xs => .ok xs
  | _ => .error ()

/-- Python `val.get("name", "")` where `val` must be a dict
(`AttributeError` otherwise). -/
def nameField (v : JVal) : Except Unit String :=
  match v with
  | .obj kvs => .ok (strOrPyStr ((kvs.lookup "name").getD (.str "")))
  | _ => .error ()

namespace SyncPy

/-- Embedding of `Sync2Sheets._extract_value_from_prop` from src/sync.py
(lines 107-126).  `typ = prop.get("type")`, `val = prop.get(typ)`, the
falsy guard returns "" (this guard fires for a false checkbox before the
checkbox branch is reached), then the per-type if-chain in source order.
Calling `.get` on a non-dict raises `AttributeError` (= `.error`). -/
def extract_value_from_prop (prop : JVal) : Except Unit String :=
  match prop with
  | .obj _ =>
    let typ? : Option String :=
      match jget prop "type" with
      | some (.str s) => some s
      | _ => none
    let val : JVal := (typ?.bind (jget prop)).getD .null
    if ¬ truthy val then .ok ""
    else if typ? = some "title" ∨ typ? = some "rich_text" then
      (asArr val).bind (joinWithKey "" "plain_text" "")
    else if typ? = some "select" then nameField val
    else if typ? = some "multi_select" then
      (asArr val).bind (joinWithKey ", " "name" "")
    else if typ? = some "number" then .ok (pyStr val)
    else if typ? = some "checkbox" then .ok (if truthy val then "TRUE" else "FALSE")
    else if typ? = some "date" then
      match val with
      | .obj kvs => .ok (strOrPyStr ((kvs.lookup "start").getD (.str "")))
      | _ => .error ()
    else if typ? = some "status" then nameField val
    else .ok (pyStr val)
  | _ => .error ()

end SyncPy

namespace MainPy

/-- Worker for the src/main.py `_extract_value_from_prop` (lines 180-213);
the first argument is recursion fuel for the `formula` branch, which
re-extracts the formula's resolved value.  The fuel passed at top level is
the structural depth of the property, an upper bound on any nesting depth,
so the `fuel = 0` case is unreachable. -/
def extractGo : Nat → JVal → Except Unit String
  | 0, _ => .error ()
  | fuel + 1, prop =>
    match prop with
    | .obj _ =>
      let typ? : Option String :=
        match jget prop "type" with
        | some (.str s) => some s
        | _ => none
      let val : JVal := (typ?.bind (jget prop)).getD .null
      if ¬ truthy val then .ok ""
      else if typ? = some "title" ∨ typ? = some "rich_text" then
        (asArr val).bind (joinWithKey "" "plain_text" "")
      else if typ? = some "select" ∨ typ? = some "status" then nameField val
      else if typ? = some "multi_select" then
        (asArr val).bind (joinWithKey ", " "name" "")
      else if typ? = some "number" then .ok (pyStr val)
      else if typ? = some "checkbox" then .ok (if truthy val then "TRUE" else "FALSE")
      else if typ? = some "date" then
        match val with
        | .obj kvs =>
          let startS := strOrPyStr ((kvs.lookup "start").getD (.str ""))
          let endV := (kvs.lookup "end").getD (.str "")
          .ok (startS ++ (if truthy endV then " to " ++ strOrPyStr endV else ""))
        | _ => .ok (pyStr val)
      else if typ? = some "url" ∨ typ? = some "email" ∨ typ? = some "phone_number" then
        .ok (strOrPyStr val)
      else if typ? = some "formula" then extractGo fuel val
      else if typ? = some "relation" then
        match val with
        | .arr xs => .ok (toString xs.length ++ " relations")
        | _ => .ok "0 relations"
      else if typ? = some "people" then
        (asArr val).bind (joinWithKey ", " "name" "Unknown User")
      else if typ? = some "created_time" ∨ typ? = some "last_edited_time" then
        match val with
        | .str s => .ok (pyTake s 10)
        | _ => .error ()
      else
        let s := pyStr val
        .ok (if pyLen s > 100 then pyTake s 100 ++ "..." else s)
    | _ => .error ()

/-- Embedding of `Sync2Sheets._extract_value_from_prop` from src/main.py
(lines 180-213).  As in src/sync.py, the generic falsy guard fires for a
false checkbox before the checkbox branch; unlike src/sync.py, the date
branch appends " to end" when a truthy end value is present. -/
def extract_value_from_prop (prop : JVal) : Except Unit String :=
  extractGo (jdepth prop) prop

end MainPy

/-- Outcome counters `self.sync_stats`, reset at the start of each
directional sync. -/
structure Stats where
  updated : Nat
  created : Nat
  errors : Nat
deriving DecidableEq, Repr

/-- Stats with every counter zero. -/
def stats0 : Stats := ⟨0, 0, 0⟩

/-- Python dict assignment `d[k] = v`: replace the binding when the key is
present, append it otherwise. -/
def setItem {α : Type} : List (String × α) → String → α → List (String × α)
  | [], k, v => [(k, v)]
  | (k0, v0) :: rest, k, v =>
    if k0 = k then (k0, v) :: rest else (k0, v0) :: setItem rest k v

/-- Shape of one entry of the Notion database schema: the property type
tag plus, for select properties, the option names the schema enumerates
(`prop_schema["select"]["options"]`, flattened to the name strings). -/
structure SchemaProp where
  typ : String
  options : List String
deriving DecidableEq, Repr

/-- Nested JSON payload the build direction produces for one property,
with one constructor per payload shape the source constructs
(e.g. `.checkbox b` stands for the dict `checkbox: b`, `.title c` for
`title: [text: [content: c]]`, `.date s` for `date: [start: s]`). -/
inductive BuiltProp where
  | title : String → BuiltProp
  | richText : String → BuiltProp
  | number : ℚ → BuiltProp
  | checkbox : Bool → BuiltProp
  | select : String → BuiltProp
  | status : String → BuiltProp
  | multiSelect : List String → BuiltProp
  | date : String → BuiltProp
  | url : String → BuiltProp
  | email : String → BuiltProp
  | phone : String → BuiltProp
deriving DecidableEq, Repr

/-- Property payload map built from one sheet row. -/
abbrev Props : Type := List (String × BuiltProp)

/-- Cell values `_build_notion_properties_from_row` accepts as a true
checkbox in both implementations: `val.upper() in ["TRUE", "YES", "1", "✓"]`. -/
def checkboxTrueSet : List String := ["TRUE", "YES", "1", "✓"]

/-- Comma-split-and-trim used by the multi_select branch:
`[x.strip() for x in val.split(",") if x.strip()]`. -/
def splitTrimNonempty (val : String) : List String :=
  ((pySplitComma val).map pyStrip).filter (fun x => x ≠ "")

/-- The stripped cell of a row at a column index: `val = row[i].strip()`
(with "" for an index beyond the row, which the callers never reach). -/
def cellVal (row : List String) (i : Nat) : String := pyStrip (row.getD i "")

namespace SyncPy

/-- The per-type if-chain of `_build_notion_properties_from_row` in
src/sync.py for a non-id column `header` found in the schema, applied to
the stripped cell `val`: a blank cell is skipped, then the chain
dispatches on `schema["type"]` in source order.  The only raising branch
is `float(...)`; the surrounding `try/except` turns a `ValueError` into a
skip. -/
def buildTyped (sp : SchemaProp) (header : String) (val : String) (props : Props) : Props :=
  if val = "" then props
  else if sp.typ = "title" then setItem props header (.title val)
  else if sp.typ = "rich_text" then setItem props header (.richText val)
  else if sp.typ = "number" then
    match pyFloat (pyRemoveChar ',' val) with
    | some q => setItem props header (.number q)
    | none => props
  else if sp.typ = "checkbox" then
    setItem props header (.checkbox (checkboxTrueSet.contains (pyUpper val)))
  else if sp.typ = "select" then setItem props header (.select val)
  else if sp.typ = "status" then setItem props header (.status val)
  else if sp.typ = "multi_select" then
    setItem props header (.multiSelect (splitTrimNonempty val))
  else if sp.typ = "date" then setItem props header (.date (pyTake val 10))
  else props

/-- Body of the per-column loop of `_build_notion_properties_from_row`
from src/sync.py (lines 165-194) for column index `i` named `header`:
skip the id column, indices beyond the row, headers outside the schema and
blank stripped cells, then dispatch on the schema type.  The only branch
that can raise is `float(...)` in the number branch; the surrounding
`try/except` turns that into a skip. -/
def build_step (schema : List (String × SchemaProp)) (idCol : String)
    (row : List String) (i : Nat) (header : String) (props : Props) : Props :=
  if header = idCol ∨ row.length ≤ i then props
  else
    match schema.lookup header with
    | none => props
    | some sp => buildTyped sp header (cellVal row i) props

/-- The `for i, header in enumerate(headers)` loop of
`_build_notion_properties_from_row` (src/sync.py). -/
def buildLoop (schema : List (String × SchemaProp)) (idCol : String)
    (row : List String) : Nat → List String → Props → Props
  | _, [], props => props
  | i, h :: hs, props =>
    buildLoop schema idCol row (i + 1) hs (build_step schema idCol row i h props)

/-- Embedding of `Sync2Sheets._build_notion_properties_from_row` from
src/sync.py (lines 165-194). -/
def build_notion_properties_from_row (schema : List (String × SchemaProp))
    (idCol : String) (row : List String) (headers : List String) : Props :=
  buildLoop schema idCol row 0 headers []

end SyncPy

namespace MainPy

/-- The per-type if-chain of `_build_notion_properties_from_row` in
src/main.py for a non-id column `header` found in the schema, applied to
the stripped cell `val`.  See the namespace doc of `build_step` for the
differences from src/sync.py. -/
def buildTyped (sp : SchemaProp) (header : String) (val : String) (props : Props) : Props :=
  if val = "" then props
  else if sp.typ = "title" then setItem props header (.title (pyTake val 2000))
  else if sp.typ = "rich_text" then setItem props header (.richText (pyTake val 2000))
  else if sp.typ = "number" then
    match pyFloat (pyStrip (pyRemoveChar '$' (pyRemoveChar ',' val))) with
    | some q => setItem props header (.number q)
    | none => props
  else if sp.typ = "select" then
    if sp.options.isEmpty || sp.options.contains val then
      setItem props header (.select val)
    else props
  else if sp.typ = "status" then setItem props header (.status val)
  else if sp.typ = "multi_select" then
    match splitTrimNonempty val with
    | [] => props
    | names => setItem props header (.multiSelect names)
  else if sp.typ = "checkbox" then
    setItem props header (.checkbox (checkboxTrueSet.contains (pyUpper val)))
  else if sp.typ = "date" then
    if 10 ≤ pyLen val ∧ pyCharAt val 4 = some '-' ∧ pyCharAt val 7 = some '-' then
      setItem props header (.date (pyTake val 10))
    else props
  else if sp.typ = "url" then
    if pyStartsWith "http://" val || pyStartsWith "https://" val then
      setItem props header (.url val)
    else props
  else if sp.typ = "email" then
    if val.toList.contains '@' then setItem props header (.email val) else props
  else if sp.typ = "phone_number" then setItem props header (.phone val)
  else props

/-- Body of the per-column loop of `_build_notion_properties_from_row`
from src/main.py (lines 290-348).  Compared with src/sync.py: title and
rich text are truncated to 2000 characters, the number branch also deletes
"$" and re-strips, select values are validated against the schema's option
names when any are enumerated, multi_select is only set when the name list
is nonempty, dates must pass the lexical ISO shape check, and url, email
and phone_number are handled. -/
def build_step (schema : List (String × SchemaProp)) (idCol : String)
    (row : List String) (i : Nat) (header : String) (props : Props) : Props :=
  if header = idCol ∨ row.length ≤ i then props
  else
    match schema.lookup header with
    | none => props
    | some sp => buildTyped sp header (cellVal row i) props

/-- The `for i, header in enumerate(headers)` loop of
`_build_notion_properties_from_row` (src/main.py). -/
def buildLoop (schema : List (String × SchemaProp)) (idCol : String)
    (row : List String) : Nat → List String → Props → Props
  | _, [], props => props
  | i, h :: hs, props =>
    buildLoop schema idCol row (i + 1) hs (build_step schema idCol row i h props)

/-- Embedding of `Sync2Sheets._build_notion_properties_from_row` from
src/main.py (lines 290-348). -/
def build_notion_properties_from_row (schema : List (String × SchemaProp))
    (idCol : String) (row : List String) (headers : List String) : Props :=
  buildLoop schema idCol row 0 headers []

end MainPy

/-- One outbound Notion write call of the table→document direction:
`requests.patch` on an existing page id, or `requests.post` creating a
page.  A call is recorded when it is issued, before its HTTP status is
inspected. -/
inductive NWrite where
  | patch : String → Props → NWrite
  | post : Props → NWrite
deriving DecidableEq, Repr

/-- State threaded through the per-row loop of `sync_sheets_to_notion`:
the counters, the Notion write calls issued so far, and the queued
write-backs of newly created page ids (`batch_updates`), each as
(sheet row, sheet column) plus the id to write. -/
structure S2NLoopSt where
  stats : Stats
  notionWrites : List NWrite
  wbQueue : List ((Nat × Nat) × String)
deriving DecidableEq, Repr

/-- Result of one `sync_sheets_to_notion` call: final counters, the trace
of Notion write calls, the sheet write-backs actually performed, and the
exception that escaped the call, if any. -/
structure S2NOut where
  stats : Stats
  notionWrites : List NWrite
  sheetWrites : List ((Nat × Nat) × String)
  err : Option String
deriving DecidableEq, Repr

/-- Body of the per-row loop of `sync_sheets_to_notion`, shared by both
implementations up to the property builder: build the payload, read the id
cell, then PATCH (counting `updated`, or `errors` when the remote call
fails) or POST (counting `created` and queueing the id write-back, or
`errors` when the remote call fails).  `patchOk i` and `postRes i` are the
remote oracle for sheet row `i`; every exception inside the body is caught
by the loop's `try/except`, so the loop itself never raises. -/
def s2nStep (buildFn : List String → Props) (idIdx : Nat)
    (patchOk : Nat → Bool) (postRes : Nat → Option String)
    (i : Nat) (row : List String) (st : S2NLoopSt) : S2NLoopSt :=
  let props := buildFn row
  let pid? : Option String :=
    if idIdx < row.length ∧ row.getD idIdx "" ≠ "" then some (row.getD idIdx "") else none
  match pid? with
  | some pid =>
    { st with
      notionWrites := st.notionWrites ++ [.patch pid props]
      stats :=
        if patchOk i then { st.stats with updated := st.stats.updated + 1 }
        else { st.stats with errors := st.stats.errors + 1 } }
  | none =>
    match postRes i with
    | some nid =>
      { st with
        notionWrites := st.notionWrites ++ [.post props]
        wbQueue := st.wbQueue ++ [((i, idIdx + 1), nid)]
        stats := { st.stats with created := st.stats.created + 1 } }
    | none =>
      { st with
        notionWrites := st.notionWrites ++ [.post props]
        stats := { st.stats with errors := st.stats.errors + 1 } }

/-- The `for i, row in enumerate(rows[1:], start=2)` loop of
`sync_sheets_to_notion`. -/
def s2nLoop (buildFn : List String → Props) (idIdx : Nat)
    (patchOk : Nat → Bool) (postRes : Nat → Option String) :
    Nat → List (List String) → S2NLoopSt → S2NLoopSt
  | _, [], st => st
  | i, row :: rest, st =>
    s2nLoop buildFn idIdx patchOk postRes (i + 1) rest
      (s2nStep buildFn idIdx patchOk postRes i row st)

/-- Flush of the queued id write-backs in src/sync.py (lines 162-163):
the loop `for rng, val in batch_updates: self.sheet.update(rng, val)` has
no `try/except`, so the first failing sheet write aborts the flush and the
exception escapes `sync_sheets_to_notion`.  `wbOk k` says whether the k-th
write call succeeds. -/
def flushStrict (wbOk : Nat → Bool) :
    Nat → List ((Nat × Nat) × String) → List ((Nat × Nat) × String) × Option String
  | _, [] => ([], none)
  | k, u :: rest =>
    if wbOk k then
      let fl := flushStrict wbOk (k + 1) rest
      (u :: fl.1, fl.2)
    else ([], some "sheet update failed")

/-- Flush of the queued id write-backs in src/main.py (lines 279-288): the
same loop wrapped in `try/except` with `logger.warning`, so a failing sheet
write aborts the remaining write-backs but no exception escapes. -/
def flushCaught (wbOk : Nat → Bool) :
    Nat → List ((Nat × Nat) × String) → List ((Nat × Nat) × String)
  | _, [] => []
  | k, u :: rest =>
    if wbOk k then u :: flushCaught wbOk (k + 1) rest
    else []

namespace SyncPy

/-- Embedding of `Sync2Sheets.sync_sheets_to_notion` from src/sync.py
(lines 128-163).  An empty sheet raises; `headers.index(NOTION_ID_COLUMN)`
raises `ValueError` (whose text names the missing column) when the id
column is absent, before any remote call; otherwise the per-row loop runs
with every per-row exception caught, and the id write-backs are flushed
without a `try/except`. -/
def sync_sheets_to_notion (schema : List (String × SchemaProp)) (idCol : String)
    (rows : List (List String)) (patchOk : Nat → Bool)
    (postRes : Nat → Option String) (wbOk : Nat → Bool) : S2NOut :=
  match rows with
  | [] => ⟨stats0, [], [], some "Sheet is empty."⟩
  | headers :: data_rows =>
    if idCol ∈ headers then
      let id_index := headers.indexOf idCol
      let st := s2nLoop (fun row => build_notion_properties_from_row schema idCol row headers)
        id_index patchOk postRes 2 data_rows ⟨stats0, [], []⟩
      let fl := flushStrict wbOk 0 st.wbQueue
      ⟨st.stats, st.notionWrites, fl.1, fl.2⟩
    else ⟨stats0, [], [], some (idCol ++ " is not in list")⟩

end SyncPy

namespace MainPy

/-- Embedding of `Sync2Sheets.sync_sheets_to_notion` from src/main.py
(lines 215-288).  Differences from src/sync.py: the missing-id-column
message, the builder, and the flush of id write-backs being wrapped in
`try/except` (a write-back failure is logged as a warning and never
escapes). -/
def sync_sheets_to_notion (schema : List (String × SchemaProp)) (idCol : String)
    (rows : List (List String)) (patchOk : Nat → Bool)
    (postRes : Nat → Option String) (wbOk : Nat → Bool) : S2NOut :=
  match rows with
  | [] => ⟨stats0, [], [], some "Sheet is empty."⟩
  | headers :: data_rows =>
    if idCol ∈ headers then
      let id_index := headers.indexOf idCol
      let st := s2nLoop (fun row => build_notion_properties_from_row schema idCol row headers)
        id_index patchOk postRes 2 data_rows ⟨stats0, [], []⟩
      ⟨st.stats, st.notionWrites, flushCaught wbOk 0 st.wbQueue, none⟩
    else ⟨stats0, [], [], some (idCol ++ " column not found in sheet.")⟩

end MainPy

/-- Per-property extraction loop of `_format_notion_page_for_sheet`:
`for key, val in page["properties"].items(): row[key] = extract(val)`,
building the row dict; the first extraction failure raises out of the
whole formatting. -/
def extractRowDictAux (ex : JVal → Except Unit String) :
    List (String × JVal) → List (String × String) → Except Unit (List (String × String))
  | [], acc => .ok acc
  | (k, v) :: rest, acc =>
    match ex v with
    | .ok s => extractRowDictAux ex rest (setItem acc k s)
    | .error e => .error e

/-- Embedding of `Sync2Sheets._format_notion_page_for_sheet` (identical in
src/sync.py lines 100-105 and src/main.py lines 168-178 up to the extract
function `ex`): extract every property into a dict, overwrite the id
column key with `page["id"]`, then order by `headers` with "" for absent
keys.  A missing `properties` or `id` key raises `KeyError`; `.items()` on
a non-dict raises. -/
def formatPageWith (ex : JVal → Except Unit String) (page : JVal)
    (headers : List String) (idCol : String) : Except Unit (List String) :=
  match jget page "properties" with
  | some (.obj kvs) =>
    match extractRowDictAux ex kvs [] with
    | .ok row0 =>
      match jget page "id" with
      | some v =>
        let row := setItem row0 idCol (strOrPyStr v)
        .ok (headers.map (fun h => (row.lookup h).getD ""))
      | none => .error ()
    | .error e => .error e
  | some _ => .error ()
  | none => .error ()

/-- The id `page["id"]` as a dict-membership key: `page_id in existing`
can only hold when the id is a string, since the keys of `existing` are
sheet cell strings. -/
def pageIdKey (page : JVal) : Option String :=
  match jget page "id" with
  | some (.str s) => some s
  | _ => none

/-- The value of the id column of one data row, exactly when the row is
long enough and the cell is non-empty (`len(row) > id_index and
row[id_index]`); rows failing this are not indexed. -/
def rowIdAt (idIdx : Nat) (row : List String) : Option String :=
  if idIdx < row.length ∧ row.getD idIdx "" ≠ "" then some (row.getD idIdx "") else none

/-- Embedding of the dict comprehension building `existing` in src/sync.py
(lines 52-55): id-column value → sheet row number (`i + 2`) over the data
rows.  A Python dict comprehension keeps the binding of the last row
carrying a given id, expressed here by giving the recursive call on the
later rows priority. -/
def existingMapAux (idIdx : Nat) : Nat → List (List String) → String → Option Nat
  | _, [] => fun _ => none
  | i, row :: rest => fun k =>
    match existingMapAux idIdx (i + 1) rest k with
    | some r => some r
    | none => if rowIdAt idIdx row = some k then some (i + 2) else none

/-- Outcome of the per-page `try` body of `sync_notion_to_sheets` in
src/sync.py: formatting failed (`err`), or the page id is a known sheet id
(`upd row_num row_data`), or the page is new (`cre row_data`). -/
inductive PageClass where
  | err : PageClass
  | upd : Nat → List String → PageClass
  | cre : List String → PageClass
deriving DecidableEq, Repr

/-- Result of `sync_notion_to_sheets` in src/sync.py: the counters and the
two write batches flushed after the loop (`update_batch` entries as
(row number, row data) for `self.sheet.update(rowcol_to_a1(row_num, 1),
[row_data])`, and `append_batch` for `self.sheet.append_rows`). -/
structure RunState where
  stats : Stats
  updateBatch : List (Nat × List String)
  appendBatch : List (List String)
deriving DecidableEq, Repr

/-- Run state at the start of the page loop. -/
def initRunState : RunState := ⟨stats0, [], []⟩

namespace SyncPy

/-- `_format_notion_page_for_sheet` of src/sync.py. -/
def format_notion_page_for_sheet (page : JVal) (headers : List String)
    (idCol : String) : Except Unit (List String) :=
  formatPageWith extract_value_from_prop page headers idCol

/-- Classification of one fetched page against the `existing` id → row
map (src/sync.py lines 60-71). -/
def classifyPage (existing : String → Option Nat) (headers : List String)
    (idCol : String) (page : JVal) : PageClass :=
  match format_notion_page_for_sheet page headers idCol with
  | .error _ => .err
  | .ok rd =>
    match pageIdKey page with
    | some s =>
      match existing s with
      | some r => .upd r rd
      | none => .cre rd
    | none => .cre rd

/-- One iteration of the page loop: a formatting failure is caught and
counted, a known id queues an in-place update, a new id queues an append. -/
def pageStep (existing : String → Option Nat) (headers : List String)
    (idCol : String) (st : RunState) (page : JVal) : RunState :=
  match classifyPage existing headers idCol page with
  | .err => { st with stats := { st.stats with errors := st.stats.errors + 1 } }
  | .upd r rd =>
    { st with
      updateBatch := st.updateBatch ++ [(r, rd)]
      stats := { st.stats with updated := st.stats.updated + 1 } }
  | .cre rd =>
    { st with
      appendBatch := st.appendBatch ++ [rd]
      stats := { st.stats with created := st.stats.created + 1 } }

/-- Embedding of `Sync2Sheets.sync_notion_to_sheets` from src/sync.py
(lines 38-82): expected header = schema property names followed by the id
column; an empty sheet or a header mismatch raises before anything else;
otherwise the pages are classified against the id → row map and the
resulting batches are returned (they are written to the sheet only after
the loop, so an error result means no sheet write was issued). -/
def sync_notion_to_sheets (schemaKeys : List String) (idCol : String)
    (sheet_data : List (List String)) (pages : List JVal) :
    Except String RunState :=
  let headers := schemaKeys ++ [idCol]
  match sheet_data with
  | [] => .error "Sheet is empty or missing headers."
  | sheet_headers :: data_rows =>
    if sheet_headers = headers then
      let id_index := headers.indexOf idCol
      let existing := existingMapAux id_index 0 data_rows
      .ok (pages.foldl (pageStep existing headers idCol) initRunState)
    else .error "Sheet headers do not match Notion properties."

end SyncPy

/-- Effect on one sheet row of `self.sheet.update(rowcol_to_a1(row_num, 1),
[row_data])`: the first `len(row_data)` cells are overwritten, later cells
keep their value. -/
def overwriteRow (old new : List String) : List String := new ++ old.drop new.length

/-- Apply one row-update write to the full sheet grid (`n` is the 1-based
sheet row number; a row number beyond the grid is out of scope, as the
update batch only ever targets existing rows). -/
def writeRow : List (List String) → Nat → List String → List (List String)
  | rows, 0, _ => rows
  | [], _ + 1, _ => []
  | r :: rs, 1, rd => overwriteRow r rd :: rs
  | r :: rs, n + 2, rd => r :: writeRow rs (n + 1) rd

/-- Sheet contents after the write phase of src/sync.py
`sync_notion_to_sheets`: each update batch entry overwrites its row, then
`append_rows` appends the new rows at the end. -/
def applySheetWrites (sheet_data : List (List String)) (st : RunState) :
    List (List String) :=
  (st.updateBatch.foldl (fun rows u => writeRow rows u.1 u.2) sheet_data) ++ st.appendBatch

/-- Result of `sync_notion_to_sheets` in src/main.py: the counters, the
full grid written to the cleared sheet (header row first), and the
exception that escaped, if any. -/
structure N2SMainOut where
  stats : Stats
  written : List (List String)
  err : Option String
deriving DecidableEq, Repr

namespace MainPy

/-- `_format_notion_page_for_sheet` of src/main.py. -/
def format_notion_page_for_sheet (page : JVal) (headers : List String)
    (idCol : String) : Except Unit (List String) :=
  formatPageWith extract_value_from_prop page headers idCol

/-- Embedding of `Sync2Sheets.sync_notion_to_sheets` from src/main.py
(lines 101-138).  This variant never reads the sheet: it formats every
page (counting per-page failures in `errors` and dropping those rows),
then clears the sheet and writes `[headers] + rows` at A1, and finally
sets `updated` to the number of fetched pages.  `updOk` says whether the
sheet write call succeeds; when it fails the exception is re-raised and
the sheet is left cleared. -/
def sync_notion_to_sheets (schemaKeys : List String) (idCol : String)
    (pages : List JVal) (updOk : Bool) : N2SMainOut :=
  let headers := schemaKeys ++ [idCol]
  let acc := pages.foldl
    (fun (a : List (List String) × Stats) page =>
      match format_notion_page_for_sheet page headers idCol with
      | .ok rd => (a.1 ++ [rd], a.2)
      | .error _ => (a.1, { a.2 with errors := a.2.errors + 1 }))
    ([headers], stats0)
  if updOk then ⟨{ acc.2 with updated := pages.length }, acc.1, none⟩
  else ⟨acc.2, [], some "Failed to update Google Sheet"⟩

end MainPy

/-- Formatting of one fetched page failed (the loop's `except` branch). -/
def pageFails (headers : List String) (idCol : String) (page : JVal) : Bool :=
  match SyncPy.format_notion_page_for_sheet page headers idCol with
  | .error _ => true
  | .ok _ => false

/-- Concrete well-formed page used by witnesses: id "p<n>" and one title
property. -/
def witPage (n : Nat) : JVal :=
  JVal.obj [("id", JVal.str ("p" ++ toString n)),
    ("properties", JVal.obj [("Title", JVal.obj [("type", JVal.str "title"),
      ("title", JVal.arr [JVal.obj [("plain_text", JVal.str "A")]])])])]

/-- Concrete page whose formatting raises: the `properties` key is missing
(`page["properties"]` raises `KeyError`). -/
def witBadPage : JVal := JVal.obj [("id", JVal.str "bad")]

/-- The 101 fetched pages of the C2 scenario: page #57 raises during
extraction, the other 100 format fine. -/
def witPages101 : List JVal :=
  (List.range 101).map (fun n => if n = 57 then witBadPage else witPage n)

/-- Concrete page carrying the duplicated id "k1" (C10 witness). -/
def witPageDup : JVal :=
  JVal.obj [("id", JVal.str "k1"),
    ("properties", JVal.obj [("Title", JVal.obj [("type", JVal.str "title"),
      ("title", JVal.arr [JVal.obj [("plain_text", JVal.str "A")]])])])]

theorem lookup_setItem_self {α : Type} (m : List (String × α)) (k : String) (v : α) :
    (setItem m k v).lookup k = some v := by
  induction m with
  | nil => simp [setItem, List.lookup]
  | cons p rest ih =>
    obtain ⟨k0, v0⟩ := p
    by_cases h : k0 = k
    · subst h
      simp [setItem, List.lookup]
    · have hbe : (k == k0) = false := beq_eq_false_iff_ne.mpr (fun hh => h hh.symm)
      simp [setItem, h, List.lookup, hbe, ih]

theorem lookup_setItem_ne {α : Type} (m : List (String × α)) (k k' : String) (v : α)
    (h : k' ≠ k) : (setItem m k v).lookup k' = m.lookup k' := by
  have hbe : (k' == k) = false := beq_eq_false_iff_ne.mpr h
  induction m with
  | nil => simp [setItem, List.lookup, hbe]
  | cons p rest ih =>
    obtain ⟨k0, v0⟩ := p
    by_cases h0 : k0 = k
    · subst h0
      simp [setItem, List.lookup, hbe]
    · cases hbe0 : (k' == k0) <;> simp [setItem, h0, List.lookup, hbe0, ih]

/-- C1: the claim says a checkbox property extracts to exactly "TRUE" when
true and exactly "FALSE" when false, never the empty string.  The code (in
both src/sync.py and src/main.py) runs the generic falsy guard
`if not val: return ""` before the checkbox branch, and Python treats
`False` as falsy, so a false checkbox extracts to "" — the dedicated
"FALSE" arm is unreachable.  This contradicts the repository's own test
`test_extract_value_from_prop_checkbox`, which asserts "FALSE".  The
theorem evaluates both extract functions at the failing input
`type: checkbox, checkbox: false` (and documents that the "TRUE" half of
the claim does hold). -/
theorem checkbox_false_extracts_empty :
    SyncPy.extract_value_from_prop
        (JVal.obj [("type", JVal.str "checkbox"), ("checkbox", JVal.bool false)]) = .ok ""
    ∧ MainPy.extract_value_from_prop
        (JVal.obj [("type", JVal.str "checkbox"), ("checkbox", JVal.bool false)]) = .ok ""
    ∧ ("" : String) ≠ "FALSE"
    ∧ SyncPy.extract_value_from_prop
        (JVal.obj [("type", JVal.str "checkbox"), ("checkbox", JVal.bool true)]) = .ok "TRUE"
    ∧ MainPy.extract_value_from_prop
        (JVal.obj [("type", JVal.str "checkbox"), ("checkbox", JVal.bool true)]) = .ok "TRUE" :=
  ⟨rfl, rfl, by decide, rfl, rfl⟩

/-- C5 counterexample: the claim says a date property with both a start
and an end extracts to "start to end".  The src/sync.py extract returns
only the start: at `start: 2023-12-01, end: 2023-12-02` it yields
"2023-12-01", which is not "2023-12-01 to 2023-12-02". -/
theorem date_extract_syncpy_drops_end :
    SyncPy.extract_value_from_prop
        (JVal.obj [("type", JVal.str "date"),
          ("date", JVal.obj [("start", JVal.str "2023-12-01"),
            ("end", JVal.str "2023-12-02")])]) = .ok "2023-12-01"
    ∧ ("2023-12-01" : String) ≠ "2023-12-01 to 2023-12-02" :=
  ⟨rfl, by decide⟩

/-- C5 amended: the two implementations diverge on the end date.  For a
date payload with a start and an end, the src/main.py extract returns the
start followed by " to end" exactly when the end value is non-empty, while
the src/sync.py extract always returns only the start; both return "" when
the date payload is null. -/
theorem date_extract_behaviour (startS endS : String) :
    MainPy.extract_value_from_prop
        (JVal.obj [("type", JVal.str "date"),
          ("date", JVal.obj [("start", JVal.str startS), ("end", JVal.str endS)])]) =
      .ok (startS ++ (if endS != "" then " to " ++ endS else ""))
    ∧ SyncPy.extract_value_from_prop
        (JVal.obj [("type", JVal.str "date"),
          ("date", JVal.obj [("start", JVal.str startS), ("end", JVal.str endS)])]) =
      .ok startS
    ∧ MainPy.extract_value_from_prop
        (JVal.obj [("type", JVal.str "date"), ("date", JVal.null)]) = .ok ""
    ∧ SyncPy.extract_value_from_prop
        (JVal.obj [("type", JVal.str "date"), ("date", JVal.null)]) = .ok "" :=
  ⟨rfl, rfl, rfl, rfl⟩

/-- C7: when the header row of the sheet lacks the id column entirely,
both implementations of `sync_sheets_to_notion` stop with an error whose
message names the missing column (src/main.py raises
`Exception(f"...column not found in sheet.")`, src/sync.py lets
`headers.index(...)` raise `ValueError: ... is not in list`), with zero
Notion write calls and zero sheet writes issued. -/
theorem missing_id_column_fails_fast (schema : List (String × SchemaProp))
    (idCol : String) (hdr : List String) (rest : List (List String))
    (patchOk : Nat → Bool) (postRes : Nat → Option String) (wbOk : Nat → Bool)
    (hmiss : idCol ∉ hdr) :
    MainPy.sync_sheets_to_notion schema idCol (hdr :: rest) patchOk postRes wbOk =
      ⟨stats0, [], [], some (idCol ++ " column not found in sheet.")⟩
    ∧ SyncPy.sync_sheets_to_notion schema idCol (hdr :: rest) patchOk postRes wbOk =
      ⟨stats0, [], [], some (idCol ++ " is not in list")⟩ := by
  constructor
  · simp [MainPy.sync_sheets_to_notion, hmiss]
  · simp [SyncPy.sync_sheets_to_notion, hmiss]

/-- Witness for C7 at a concrete sheet whose header lacks the id column. -/
theorem missing_id_column_fails_fast_witness :
    MainPy.sync_sheets_to_notion [] "Notion Page ID" [["Title", "Status"], ["Page 1", "Active"]]
        (fun _ => true) (fun _ => none) (fun _ => true) =
      ⟨stats0, [], [], some "Notion Page ID column not found in sheet."⟩
    ∧ SyncPy.sync_sheets_to_notion [] "Notion Page ID" [["Title", "Status"], ["Page 1", "Active"]]
        (fun _ => true) (fun _ => none) (fun _ => true) =
      ⟨stats0, [], [], some "Notion Page ID is not in list"⟩ :=
  missing_id_column_fails_fast [] "Notion Page ID" ["Title", "Status"] [["Page 1", "Active"]]
    (fun _ => true) (fun _ => none) (fun _ => true) (by decide)

/-- C9 counterexample: in src/sync.py the flush of queued id write-backs
has no `try/except`, so a failing sheet write escapes
`sync_sheets_to_notion`.  Concretely: one row with an empty id cell, the
create succeeds (`created = 1`, one POST issued), and the single write-back
fails — the call ends with an escaped exception, contradicting the claim
that a write-back failure is never escalated. -/
theorem writeback_failure_raises_syncpy :
    SyncPy.sync_sheets_to_notion [] "PID" [["PID"], [""]] (fun _ => true)
        (fun _ => some "n1") (fun _ => false) =
      ⟨⟨0, 1, 0⟩, [.post []], [], some "sheet update failed"⟩ := rfl

/-- C9 amended: in src/main.py the flush is wrapped in `try/except` with a
`logger.warning`, so `sync_sheets_to_notion` never raises once the sheet is
non-empty and the id column exists — whatever the remote call and
write-back outcomes are. -/
theorem writeback_failure_never_escalates_mainpy (schema : List (String × SchemaProp))
    (idCol : String) (hdr : List String) (rest : List (List String))
    (patchOk : Nat → Bool) (postRes : Nat → Option String) (wbOk : Nat → Bool)
    (hid : idCol ∈ hdr) :
    (MainPy.sync_sheets_to_notion schema idCol (hdr :: rest) patchOk postRes wbOk).err = none := by
  simp [MainPy.sync_sheets_to_notion, hid]

/-- Witness for the amended C9: the src/main.py variant of the exact
scenario of the counterexample (a successful create whose id write-back
fails) finishes without an escaped exception. -/
theorem writeback_failure_never_escalates_mainpy_witness :
    (MainPy.sync_sheets_to_notion [] "PID" [["PID"], [""]] (fun _ => true)
        (fun _ => some "n1") (fun _ => false)).err = none :=
  writeback_failure_never_escalates_mainpy [] "PID" ["PID"] [[""]] (fun _ => true)
    (fun _ => some "n1") (fun _ => false) (by decide)

/-- C3 counterexample: the claim says every document→table sync run hard
errors on a header mismatch before writing anything.  The src/main.py
`sync_notion_to_sheets` never reads the sheet at all: whatever the sheet's
header row holds, it completes without an exception and writes a fresh
grid (its own header plus the formatted rows) over the cleared sheet —
the mismatched header is silently repaired rather than reported. -/
theorem header_mismatch_mainpy_no_error :
    MainPy.sync_notion_to_sheets ["Title"] "PID"
        [JVal.obj [("id", JVal.str "p1"),
          ("properties", JVal.obj [("Title", JVal.obj [("type", JVal.str "title"),
            ("title", JVal.arr [JVal.obj [("plain_text", JVal.str "A")]])])])]] true =
      ⟨⟨1, 0, 0⟩, [["Title", "PID"], ["A", "p1"]], none⟩ := rfl

/-- C3 amended: the header invariant holds for the src/sync.py
implementation: whenever the sheet's header row differs from the schema
property names followed by the id column, `sync_notion_to_sheets` returns
the hard error — so no row is trusted and no write batch is produced.  The
src/main.py variant instead performs no header check and rewrites the
whole sheet (see the counterexample). -/
theorem header_mismatch_raises (schemaKeys : List String) (idCol : String)
    (sheet_headers : List String) (data_rows : List (List String)) (pages : List JVal)
    (hne : sheet_headers ≠ schemaKeys ++ [idCol]) :
    SyncPy.sync_notion_to_sheets schemaKeys idCol (sheet_headers :: data_rows) pages =
      .error "Sheet headers do not match Notion properties." := by
  simp [SyncPy.sync_notion_to_sheets, hne]

/-- Witness for the amended C3 at a concrete mismatched header. -/
theorem header_mismatch_raises_witness :
    SyncPy.sync_notion_to_sheets ["Title"] "PID" [["Status", "PID"], ["x", "p1"]] [] =
      .error "Sheet headers do not match Notion properties." :=
  header_mismatch_raises ["Title"] "PID" ["Status", "PID"] [["x", "p1"]] [] (by decide)

theorem lookup_buildTyped_sync_ne (sp : SchemaProp) (h' k val : String) (props : Props)
    (hne : h' ≠ k) :
    (SyncPy.buildTyped sp h' val props).lookup k = props.lookup k := by
  unfold SyncPy.buildTyped
  repeat' split
  all_goals first
    | rfl
    | exact lookup_setItem_ne _ _ _ _ (Ne.symm hne)

theorem lookup_buildTyped_main_ne (sp : SchemaProp) (h' k val : String) (props : Props)
    (hne : h' ≠ k) :
    (MainPy.buildTyped sp h' val props).lookup k = props.lookup k := by
  have hset : ∀ v : BuiltProp, (setItem props h' v).lookup k = props.lookup k :=
    fun v => lookup_setItem_ne _ _ _ _ (Ne.symm hne)
  unfold MainPy.buildTyped
  by_cases c0 : val = ""
  · rw [if_pos c0]
  · rw [if_neg c0]
    by_cases c1 : sp.typ = "title"
    · rw [if_pos c1]; exact hset _
    · rw [if_neg c1]
      by_cases c2 : sp.typ = "rich_text"
      · rw [if_pos c2]; exact hset _
      · rw [if_neg c2]
        by_cases c3 : sp.typ = "number"
        · rw [if_pos c3]
          cases pyFloat (pyStrip (pyRemoveChar '$' (pyRemoveChar ',' val))) with
          | none => rfl
          | some q => exact hset _
        · rw [if_neg c3]
          by_cases c4 : sp.typ = "select"
          · rw [if_pos c4]
            by_cases c4b : (sp.options.isEmpty || sp.options.contains val) = true
            · rw [if_pos c4b]; exact hset _
            · rw [if_neg c4b]
          · rw [if_neg c4]
            by_cases c5 : sp.typ = "status"
            · rw [if_pos c5]; exact hset _
            · rw [if_neg c5]
              by_cases c6 : sp.typ = "multi_select"
              · rw [if_pos c6]
                cases splitTrimNonempty val with
                | nil => rfl
                | cons a l => exact hset _
              · rw [if_neg c6]
                by_cases c7 : sp.typ = "checkbox"
                · rw [if_pos c7]; exact hset _
                · rw [if_neg c7]
                  by_cases c8 : sp.typ = "date"
                  · rw [if_pos c8]
                    by_cases c8b : 10 ≤ pyLen val ∧ pyCharAt val 4 = some '-' ∧
                        pyCharAt val 7 = some '-'
                    · rw [if_pos c8b]; exact hset _
                    · rw [if_neg c8b]
                  · rw [if_neg c8]
                    by_cases c9 : sp.typ = "url"
                    · rw [if_pos c9]
                      by_cases c9b : (pyStartsWith "http://" val ||
                          pyStartsWith "https://" val) = true
                      · rw [if_pos c9b]; exact hset _
                      · rw [if_neg c9b]
                    · rw [if_neg c9]
                      by_cases c10 : sp.typ = "email"
                      · rw [if_pos c10]
                        by_cases c10b : val.toList.contains '@' = true
                        · rw [if_pos c10b]; exact hset _
                        · rw [if_neg c10b]
                      · rw [if_neg c10]
                        by_cases c11 : sp.typ = "phone_number"
                        · rw [if_pos c11]; exact hset _
                        · rw [if_neg c11]

theorem lookup_build_step_sync_ne (schema : List (String × SchemaProp)) (idCol : String)
    (row : List String) (i : Nat) (h' k : String) (props : Props) (hne : h' ≠ k) :
    (SyncPy.build_step schema idCol row i h' props).lookup k = props.lookup k := by
  unfold SyncPy.build_step
  split
  · rfl
  · split
    · rfl
    · exact lookup_buildTyped_sync_ne _ _ _ _ _ hne

theorem lookup_build_step_main_ne (schema : List (String × SchemaProp)) (idCol : String)
    (row : List String) (i : Nat) (h' k : String) (props : Props) (hne : h' ≠ k) :
    (MainPy.build_step schema idCol row i h' props).lookup k = props.lookup k := by
  unfold MainPy.build_step
  split
  · rfl
  · split
    · rfl
    · exact lookup_buildTyped_main_ne _ _ _ _ _ hne

theorem lookup_buildLoop_sync_not_mem (schema : List (String × SchemaProp)) (idCol : String)
    (row : List String) (i : Nat) (hs : List String) (props : Props) (k : String)
    (hk : k ∉ hs) :
    (SyncPy.buildLoop schema idCol row i hs props).lookup k = props.lookup k := by
  induction hs generalizing i props with
  | nil => rfl
  | cons h t ih =>
    show (SyncPy.buildLoop schema idCol row (i + 1) t
      (SyncPy.build_step schema idCol row i h props)).lookup k = props.lookup k
    rw [ih _ _ (fun hh => hk (List.mem_cons_of_mem _ hh))]
    exact lookup_build_step_sync_ne _ _ _ _ _ _ _ (fun hh => hk (hh ▸ List.mem_cons_self _ _))

theorem lookup_buildLoop_main_not_mem (schema : List (String × SchemaProp)) (idCol : String)
    (row : List String) (i : Nat) (hs : List String) (props : Props) (k : String)
    (hk : k ∉ hs) :
    (MainPy.buildLoop schema idCol row i hs props).lookup k = props.lookup k := by
  induction hs generalizing i props with
  | nil => rfl
  | cons h t ih =>
    show (MainPy.buildLoop schema idCol row (i + 1) t
      (MainPy.build_step schema idCol row i h props)).lookup k = props.lookup k
    rw [ih _ _ (fun hh => hk (List.mem_cons_of_mem _ hh))]
    exact lookup_build_step_main_ne _ _ _ _ _ _ _ (fun hh => hk (hh ▸ List.mem_cons_self _ _))

theorem buildLoop_sync_append (schema : List (String × SchemaProp)) (idCol : String)
    (row : List String) (xs ys : List String) (i : Nat) (props : Props) :
    SyncPy.buildLoop schema idCol row i (xs ++ ys) props =
      SyncPy.buildLoop schema idCol row (i + xs.length) ys
        (SyncPy.buildLoop schema idCol row i xs props) := by
  induction xs generalizing i props with
  | nil => simp [SyncPy.buildLoop]
  | cons h t ih =>
    show SyncPy.buildLoop schema idCol row (i + 1) (t ++ ys)
        (SyncPy.build_step schema idCol row i h props) =
      SyncPy.buildLoop schema idCol row (i + (h :: t).length) ys
        (SyncPy.buildLoop schema idCol row (i + 1) t (SyncPy.build_step schema idCol row i h props))
    have hidx : i + (h :: t).length = i + 1 + t.length := by
      simp [List.length_cons]
      omega
    rw [hidx, ih]

theorem buildLoop_main_append (schema : List (String × SchemaProp)) (idCol : String)
    (row : List String) (xs ys : List String) (i : Nat) (props : Props) :
    MainPy.buildLoop schema idCol row i (xs ++ ys) props =
      MainPy.buildLoop schema idCol row (i + xs.length) ys
        (MainPy.buildLoop schema idCol row i xs props) := by
  induction xs generalizing i props with
  | nil => simp [MainPy.buildLoop]
  | cons h t ih =>
    show MainPy.buildLoop schema idCol row (i + 1) (t ++ ys)
        (MainPy.build_step schema idCol row i h props) =
      MainPy.buildLoop schema idCol row (i + (h :: t).length) ys
        (MainPy.buildLoop schema idCol row (i + 1) t (MainPy.build_step schema idCol row i h props))
    have hidx : i + (h :: t).length = i + 1 + t.length := by
      simp [List.length_cons]
      omega
    rw [hidx, ih]

theorem lookup_build_sync_decomp (schema : List (String × SchemaProp)) (idCol : String)
    (row : List String) (pre post : List String) (h : String) (hpost : h ∉ post) :
    (SyncPy.build_notion_properties_from_row schema idCol row (pre ++ h :: post)).lookup h =
      (SyncPy.build_step schema idCol row pre.length h
        (SyncPy.buildLoop schema idCol row 0 pre [])).lookup h := by
  unfold SyncPy.build_notion_properties_from_row
  rw [buildLoop_sync_append]
  show (SyncPy.buildLoop schema idCol row (0 + pre.length + 1) post
      (SyncPy.build_step schema idCol row (0 + pre.length) h
        (SyncPy.buildLoop schema idCol row 0 pre []))).lookup h = _
  rw [lookup_buildLoop_sync_not_mem _ _ _ _ _ _ _ hpost, Nat.zero_add]

theorem lookup_build_main_decomp (schema : List (String × SchemaProp)) (idCol : String)
    (row : List String) (pre post : List String) (h : String) (hpost : h ∉ post) :
    (MainPy.build_notion_properties_from_row schema idCol row (pre ++ h :: post)).lookup h =
      (MainPy.build_step schema idCol row pre.length h
        (MainPy.buildLoop schema idCol row 0 pre [])).lookup h := by
  unfold MainPy.build_notion_properties_from_row
  rw [buildLoop_main_append]
  show (MainPy.buildLoop schema idCol row (0 + pre.length + 1) post
      (MainPy.build_step schema idCol row (0 + pre.length) h
        (MainPy.buildLoop schema idCol row 0 pre []))).lookup h = _
  rw [lookup_buildLoop_main_not_mem _ _ _ _ _ _ _ hpost, Nat.zero_add]

theorem buildTyped_sync_checkbox (sp : SchemaProp) (h val : String) (props : Props)
    (htyp : sp.typ = "checkbox") (hval : val ≠ "") :
    SyncPy.buildTyped sp h val props =
      setItem props h (.checkbox (checkboxTrueSet.contains (pyUpper val))) := by
  unfold SyncPy.buildTyped
  rw [if_neg hval, htyp]
  simp

theorem buildTyped_main_checkbox (sp : SchemaProp) (h val : String) (props : Props)
    (htyp : sp.typ = "checkbox") (hval : val ≠ "") :
    MainPy.buildTyped sp h val props =
      setItem props h (.checkbox (checkboxTrueSet.contains (pyUpper val))) := by
  unfold MainPy.buildTyped
  rw [if_neg hval, htyp]
  simp

theorem buildTyped_sync_number (sp : SchemaProp) (h val : String) (props : Props)
    (htyp : sp.typ = "number") (hval : val ≠ "") :
    SyncPy.buildTyped sp h val props =
      (match pyFloat (pyRemoveChar ',' val) with
       | some q => setItem props h (.number q)
       | none => props) := by
  unfold SyncPy.buildTyped
  rw [if_neg hval, htyp]
  simp

theorem buildTyped_main_number (sp : SchemaProp) (h val : String) (props : Props)
    (htyp : sp.typ = "number") (hval : val ≠ "") :
    MainPy.buildTyped sp h val props =
      (match pyFloat (pyStrip (pyRemoveChar '$' (pyRemoveChar ',' val))) with
       | some q => setItem props h (.number q)
       | none => props) := by
  unfold MainPy.buildTyped
  rw [if_neg hval, htyp]
  simp

/-- C4 counterexample: the claim says a checkbox column with an empty cell
gets a `checkbox: false` payload.  In both implementations an empty
(stripped) cell is skipped before the type dispatch (`if not cell_value:
continue`), so the built property map contains no entry at all for the
column — not a false payload. -/
theorem checkbox_build_empty_cell_skipped :
    List.lookup "Done" (SyncPy.build_notion_properties_from_row
        [("Done", ⟨"checkbox", []⟩)] "PID" ["x", ""] ["Title", "Done"]) = none
    ∧ List.lookup "Done" (MainPy.build_notion_properties_from_row
        [("Done", ⟨"checkbox", []⟩)] "PID" ["x", ""] ["Title", "Done"]) = none
    ∧ (none : Option BuiltProp) ≠ some (.checkbox false) :=
  ⟨by decide, by decide, by decide⟩

/-- C4 amended: for a checkbox-typed column (appearing once among the
headers, distinct from the id column, with a cell present), both build
implementations produce `checkbox: true` exactly when the upper-cased
stripped cell is one of TRUE, YES, 1 or the check-mark glyph, and
`checkbox: false` for every other non-empty cell; an empty (stripped) cell
produces no payload at all — the column is skipped, not set to false. -/
theorem checkbox_build_truth_set (schema : List (String × SchemaProp)) (idCol h : String)
    (pre post : List String) (row : List String) (sp : SchemaProp)
    (hsch : schema.lookup h = some sp) (htyp : sp.typ = "checkbox")
    (hid : h ≠ idCol) (hpre : h ∉ pre) (hpost : h ∉ post)
    (hlen : pre.length < row.length) :
    (SyncPy.build_notion_properties_from_row schema idCol row (pre ++ h :: post)).lookup h =
      (if cellVal row pre.length = "" then none
       else some (.checkbox (checkboxTrueSet.contains (pyUpper (cellVal row pre.length)))))
    ∧ (MainPy.build_notion_properties_from_row schema idCol row (pre ++ h :: post)).lookup h =
      (if cellVal row pre.length = "" then none
       else some (.checkbox (checkboxTrueSet.contains (pyUpper (cellVal row pre.length))))) := by
  have hguard : ¬ (h = idCol ∨ row.length ≤ pre.length) := by
    rintro (hc | hc)
    · exact hid hc
    · exact absurd hc (not_le.mpr hlen)
  constructor
  · rw [lookup_build_sync_decomp _ _ _ _ _ _ hpost]
    have hP1 : (SyncPy.buildLoop schema idCol row 0 pre []).lookup h = none := by
      rw [lookup_buildLoop_sync_not_mem _ _ _ _ _ _ _ hpre]
      rfl
    unfold SyncPy.build_step
    rw [if_neg hguard, hsch]
    by_cases hval : cellVal row pre.length = ""
    · rw [if_pos hval]
      show (SyncPy.buildTyped sp h (cellVal row pre.length) _).lookup h = none
      unfold SyncPy.buildTyped
      rw [if_pos hval]
      exact hP1
    · rw [if_neg hval]
      show (SyncPy.buildTyped sp h (cellVal row pre.length) _).lookup h = _
      rw [buildTyped_sync_checkbox _ _ _ _ htyp hval]
      exact lookup_setItem_self _ _ _
  · rw [lookup_build_main_decomp _ _ _ _ _ _ hpost]
    have hP1 : (MainPy.buildLoop schema idCol row 0 pre []).lookup h = none := by
      rw [lookup_buildLoop_main_not_mem _ _ _ _ _ _ _ hpre]
      rfl
    unfold MainPy.build_step
    rw [if_neg hguard, hsch]
    by_cases hval : cellVal row pre.length = ""
    · rw [if_pos hval]
      show (MainPy.buildTyped sp h (cellVal row pre.length) _).lookup h = none
      unfold MainPy.buildTyped
      rw [if_pos hval]
      exact hP1
    · rw [if_neg hval]
      show (MainPy.buildTyped sp h (cellVal row pre.length) _).lookup h = _
      rw [buildTyped_main_checkbox _ _ _ _ htyp hval]
      exact lookup_setItem_self _ _ _

/-- Witness for the amended C4: a checkbox column whose cell is "yes"
builds a `checkbox: true` payload. -/
theorem checkbox_build_truth_set_witness :
    (SyncPy.build_notion_properties_from_row [("Done", ⟨"checkbox", []⟩)] "PID"
        ["x", "yes"] ["Title", "Done"]).lookup "Done" = some (.checkbox true)
    ∧ (MainPy.build_notion_properties_from_row [("Done", ⟨"checkbox", []⟩)] "PID"
        ["x", "yes"] ["Title", "Done"]).lookup "Done" = some (.checkbox true) := by
  have h := checkbox_build_truth_set [("Done", ⟨"checkbox", []⟩)] "PID" "Done" ["Title"] []
    ["x", "yes"] ⟨"checkbox", []⟩ (by decide) rfl (by decide) (by decide) (by decide) (by decide)
  exact ⟨h.1.trans (by decide), h.2.trans (by decide)⟩

/-- C6 counterexample: the claim says the build operation strips thousands
separators and a leading currency symbol before parsing a number cell.
The src/sync.py build only deletes commas — at the cell "$100" (a number
whose currency-stripped text "100" parses fine, as the second conjunct
shows, and which src/main.py does accept, as the third shows) it hands
"$100" to `float`, which raises, so the property is skipped instead of
parsed. -/
theorem number_build_currency_not_stripped_syncpy :
    List.lookup "Price" (SyncPy.build_notion_properties_from_row
        [("Price", ⟨"number", []⟩)] "PID" ["$100"] ["Price"]) = none
    ∧ (pyFloat "100").isSome = true
    ∧ (List.lookup "Price" (MainPy.build_notion_properties_from_row
        [("Price", ⟨"number", []⟩)] "PID" ["$100"] ["Price"])).isSome = true :=
  ⟨by decide, by decide, by decide⟩

/-- C6 amended: for a number-typed column (appearing once among the
headers, distinct from the id column, with a cell present), the src/sync.py
build deletes only commas before parsing, while the src/main.py build
deletes commas and dollar signs (wherever they occur) and re-strips; in
both, an unparsable result — and an empty stripped cell — leaves the
column out of the produced property map. -/
theorem number_build_behaviour (schema : List (String × SchemaProp)) (idCol h : String)
    (pre post : List String) (row : List String) (sp : SchemaProp)
    (hsch : schema.lookup h = some sp) (htyp : sp.typ = "number")
    (hid : h ≠ idCol) (hpre : h ∉ pre) (hpost : h ∉ post)
    (hlen : pre.length < row.length) :
    (SyncPy.build_notion_properties_from_row schema idCol row (pre ++ h :: post)).lookup h =
      (if cellVal row pre.length = "" then none
       else match pyFloat (pyRemoveChar ',' (cellVal row pre.length)) with
         | some q => some (.number q)
         | none => none)
    ∧ (MainPy.build_notion_properties_from_row schema idCol row (pre ++ h :: post)).lookup h =
      (if cellVal row pre.length = "" then none
       else match pyFloat (pyStrip (pyRemoveChar '$' (pyRemoveChar ',' (cellVal row pre.length)))) with
         | some q => some (.number q)
         | none => none) := by
  have hguard : ¬ (h = idCol ∨ row.length ≤ pre.length) := by
    rintro (hc | hc)
    · exact hid hc
    · exact absurd hc (not_le.mpr hlen)
  constructor
  · rw [lookup_build_sync_decomp _ _ _ _ _ _ hpost]
    have hP1 : (SyncPy.buildLoop schema idCol row 0 pre []).lookup h = none := by
      rw [lookup_buildLoop_sync_not_mem _ _ _ _ _ _ _ hpre]
      rfl
    unfold SyncPy.build_step
    rw [if_neg hguard, hsch]
    by_cases hval : cellVal row pre.length = ""
    · rw [if_pos hval]
      show (SyncPy.buildTyped sp h (cellVal row pre.length) _).lookup h = none
      unfold SyncPy.buildTyped
      rw [if_pos hval]
      exact hP1
    · rw [if_neg hval]
      show (SyncPy.buildTyped sp h (cellVal row pre.length) _).lookup h = _
      rw [buildTyped_sync_number _ _ _ _ htyp hval]
      cases pyFloat (pyRemoveChar ',' (cellVal row pre.length)) with
      | none => exact hP1
      | some q => exact lookup_setItem_self _ _ _
  · rw [lookup_build_main_decomp _ _ _ _ _ _ hpost]
    have hP1 : (MainPy.buildLoop schema idCol row 0 pre []).lookup h = none := by
      rw [lookup_buildLoop_main_not_mem _ _ _ _ _ _ _ hpre]
      rfl
    unfold MainPy.build_step
    rw [if_neg hguard, hsch]
    by_cases hval : cellVal row pre.length = ""
    · rw [if_pos hval]
      show (MainPy.buildTyped sp h (cellVal row pre.length) _).lookup h = none
      unfold MainPy.buildTyped
      rw [if_pos hval]
      exact hP1
    · rw [if_neg hval]
      show (MainPy.buildTyped sp h (cellVal row pre.length) _).lookup h = _
      rw [buildTyped_main_number _ _ _ _ htyp hval]
      cases pyFloat (pyStrip (pyRemoveChar '$' (pyRemoveChar ',' (cellVal row pre.length)))) with
      | none => exact hP1
      | some q => exact lookup_setItem_self _ _ _

/-- Witness for the amended C6: the spec's own example — a number column
whose cell is "invalid_number" is skipped by both builds. -/
theorem number_build_behaviour_witness :
    (SyncPy.build_notion_properties_from_row [("Price", ⟨"number", []⟩)] "PID"
        ["invalid_number"] ["Price"]).lookup "Price" = none
    ∧ (MainPy.build_notion_properties_from_row [("Price", ⟨"number", []⟩)] "PID"
        ["invalid_number"] ["Price"]).lookup "Price" = none := by
  have h := number_build_behaviour [("Price", ⟨"number", []⟩)] "PID" "Price" [] []
    ["invalid_number"] ⟨"number", []⟩ (by decide) rfl (by decide) (by decide) (by decide)
    (by decide)
  exact ⟨h.1.trans (by decide), h.2.trans (by decide)⟩

theorem countP_not_add {α : Type} (p : α → Bool) (l : List α) :
    l.countP p + l.countP (fun a => !p a) = l.length := by
  induction l with
  | nil => rfl
  | cons a t ih =>
    by_cases h : p a <;> simp [List.countP_cons, h] <;> omega

theorem classifyPage_err_iff (existing : String → Option Nat) (headers : List String)
    (idCol : String) (p : JVal) :
    SyncPy.classifyPage existing headers idCol p = .err ↔ pageFails headers idCol p = true := by
  unfold SyncPy.classifyPage pageFails
  cases SyncPy.format_notion_page_for_sheet p headers idCol with
  | error e => simp
  | ok rd =>
    cases pageIdKey p with
    | none => simp
    | some s =>
      rcases hes : existing s with _ | r <;> simp [hes]

theorem classifyPage_not_err (existing : String → Option Nat) (headers : List String)
    (idCol : String) (p : JVal) (hc : SyncPy.classifyPage existing headers idCol p ≠ .err) :
    pageFails headers idCol p = false := by
  by_contra hh
  have ht : pageFails headers idCol p = true := by simpa using hh
  exact hc ((classifyPage_err_iff existing headers idCol p).mpr ht)

theorem pageFold_counts (existing : String → Option Nat) (headers : List String)
    (idCol : String) (pages : List JVal) (st : RunState) :
    (pages.foldl (SyncPy.pageStep existing headers idCol) st).stats.errors =
        st.stats.errors + pages.countP (pageFails headers idCol)
    ∧ (pages.foldl (SyncPy.pageStep existing headers idCol) st).stats.updated +
        (pages.foldl (SyncPy.pageStep existing headers idCol) st).stats.created =
        st.stats.updated + st.stats.created +
          pages.countP (fun p => !(pageFails headers idCol p))
    ∧ (pages.foldl (SyncPy.pageStep existing headers idCol) st).updateBatch.length +
        (pages.foldl (SyncPy.pageStep existing headers idCol) st).appendBatch.length =
        st.updateBatch.length + st.appendBatch.length +
          pages.countP (fun p => !(pageFails headers idCol p)) := by
  induction pages generalizing st with
  | nil => simp
  | cons hd tl ih =>
    simp only [List.foldl_cons, List.countP_cons]
    cases hc : SyncPy.classifyPage existing headers idCol hd with
    | err =>
      have hf : pageFails headers idCol hd = true :=
        (classifyPage_err_iff existing headers idCol hd).mp hc
      obtain ⟨h1, h2, h3⟩ := ih
        { st with stats := { st.stats with errors := st.stats.errors + 1 } }
      refine ⟨?_, ?_, ?_⟩ <;>
        · simp only [SyncPy.pageStep, hc]
          simp [h1, h2, h3, hf] <;> omega
    | upd r rd =>
      have hf : pageFails headers idCol hd = false :=
        classifyPage_not_err existing headers idCol hd (by simp [hc])
      obtain ⟨h1, h2, h3⟩ := ih
        { st with
          updateBatch := st.updateBatch ++ [(r, rd)]
          stats := { st.stats with updated := st.stats.updated + 1 } }
      refine ⟨?_, ?_, ?_⟩ <;>
        · simp only [SyncPy.pageStep, hc]
          simp [h1, h2, h3, hf] <;> omega
    | cre rd =>
      have hf : pageFails headers idCol hd = false :=
        classifyPage_not_err existing headers idCol hd (by simp [hc])
      obtain ⟨h1, h2, h3⟩ := ih
        { st with
          appendBatch := st.appendBatch ++ [rd]
          stats := { st.stats with created := st.stats.created + 1 } }
      refine ⟨?_, ?_, ?_⟩ <;>
        · simp only [SyncPy.pageStep, hc]
          simp [h1, h2, h3, hf] <;> omega

/-- C2: a document→table sync over 101 fetched records of which exactly
one raises during extraction completes without raising (given the
structural precondition that the sheet has the expected header row), the
final stats show exactly one error, the other 100 records are each counted
exactly once as created or updated, and exactly one batch entry (update or
append) is queued per successful record. -/
theorem sync_isolates_single_failure (schemaKeys : List String) (idCol : String)
    (data_rows : List (List String)) (pages : List JVal)
    (hlen : pages.length = 101)
    (hfail : pages.countP (pageFails (schemaKeys ++ [idCol]) idCol) = 1) :
    ∃ st, SyncPy.sync_notion_to_sheets schemaKeys idCol
        ((schemaKeys ++ [idCol]) :: data_rows) pages = .ok st
      ∧ st.stats.errors = 1
      ∧ st.stats.updated + st.stats.created = 100
      ∧ st.updateBatch.length + st.appendBatch.length = 100 := by
  refine ⟨pages.foldl
    (SyncPy.pageStep (existingMapAux ((schemaKeys ++ [idCol]).indexOf idCol) 0 data_rows)
      (schemaKeys ++ [idCol]) idCol) initRunState, ?_, ?_, ?_, ?_⟩
  · simp [SyncPy.sync_notion_to_sheets]
  all_goals
    obtain ⟨h1, h2, h3⟩ := pageFold_counts
      (existingMapAux ((schemaKeys ++ [idCol]).indexOf idCol) 0 data_rows)
      (schemaKeys ++ [idCol]) idCol pages initRunState
    have hok := countP_not_add (pageFails (schemaKeys ++ [idCol]) idCol) pages
    simp [initRunState, stats0] at h1 h2 h3 ⊢
    omega

/-- Witness for C2: 101 concrete pages of which exactly #57 lacks its
`properties` key and raises; the run reports one error and 100 records
classified (here all appended, since the sheet starts with no data rows). -/
theorem sync_isolates_single_failure_witness :
    ∃ st, SyncPy.sync_notion_to_sheets ["Title"] "PID"
        [["Title", "PID"]] witPages101 = .ok st
      ∧ st.stats.errors = 1
      ∧ st.stats.updated + st.stats.created = 100
      ∧ st.updateBatch.length + st.appendBatch.length = 100 :=
  sync_isolates_single_failure ["Title"] "PID" [] witPages101 (by decide) (by decide)

theorem existingMapAux_eq_none (idIdx : Nat) (i : Nat) (rows : List (List String)) (k : String)
    (h : ∀ l, l < rows.length → rowIdAt idIdx (rows.getD l []) ≠ some k) :
    existingMapAux idIdx i rows k = none := by
  induction rows generalizing i with
  | nil => rfl
  | cons row rest ih =>
    have h0 : rowIdAt idIdx row ≠ some k := by
      have := h 0 (by simp)
      simpa using this
    have hrest : ∀ l, l < rest.length → rowIdAt idIdx (rest.getD l []) ≠ some k := by
      intro l hl
      have := h (l + 1) (by simp; omega)
      simpa using this
    simp [existingMapAux, ih (i + 1) hrest, h0]

theorem existingMapAux_last (idIdx : Nat) (rows : List (List String)) (k : String)
    (j : Nat) (i : Nat) (hj : j < rows.length)
    (hid : rowIdAt idIdx (rows.getD j []) = some k)
    (hlast : ∀ l, j < l → l < rows.length → rowIdAt idIdx (rows.getD l []) ≠ some k) :
    existingMapAux idIdx i rows k = some (i + j + 2) := by
  induction rows generalizing i j with
  | nil => simp at hj
  | cons row rest ih =>
    cases j with
    | zero =>
      have hnone : existingMapAux idIdx (i + 1) rest k = none := by
        apply existingMapAux_eq_none
        intro l hl
        have := hlast (l + 1) (by omega) (by simp; omega)
        simpa using this
      have hrow : rowIdAt idIdx row = some k := by simpa using hid
      simp [existingMapAux, hnone, hrow]
    | succ j' =>
      have hid' : rowIdAt idIdx (rest.getD j' []) = some k := by simpa using hid
      have hlast' : ∀ l, j' < l → l < rest.length → rowIdAt idIdx (rest.getD l []) ≠ some k := by
        intro l hl1 hl2
        have := hlast (l + 1) (by omega) (by simp; omega)
        simpa using this
      have := ih j' (i + 1) (by simpa using hj) hid' hlast'
      simp only [existingMapAux, this]
      congr 1
      omega

/-- C10: when two or more data rows carry the same non-empty id value, the
dict comprehension building the id → row map keeps only the last such
row's position, so a fetched record with that id is classified as exactly
one update targeting the last duplicate row's position, and the earlier
duplicate rows receive no write (the update batch of a run over just that
record is the single entry for the last duplicate's row number, which is
different from the earlier duplicate's). -/
theorem duplicate_ids_last_row_wins (schemaKeys : List String) (idCol : String)
    (data_rows : List (List String)) (i j : Nat) (k : String) (p : JVal)
    (rd : List String)
    (hij : i < j) (hj : j < data_rows.length)
    (hidI : rowIdAt ((schemaKeys ++ [idCol]).indexOf idCol) (data_rows.getD i []) = some k)
    (hidJ : rowIdAt ((schemaKeys ++ [idCol]).indexOf idCol) (data_rows.getD j []) = some k)
    (hlast : ∀ l, j < l → l < data_rows.length →
      rowIdAt ((schemaKeys ++ [idCol]).indexOf idCol) (data_rows.getD l []) ≠ some k)
    (hfmt : SyncPy.format_notion_page_for_sheet p (schemaKeys ++ [idCol]) idCol = .ok rd)
    (hpid : pageIdKey p = some k) :
    existingMapAux ((schemaKeys ++ [idCol]).indexOf idCol) 0 data_rows k = some (j + 2)
    ∧ SyncPy.sync_notion_to_sheets schemaKeys idCol
        ((schemaKeys ++ [idCol]) :: data_rows) [p] =
        .ok ⟨⟨1, 0, 0⟩, [(j + 2, rd)], []⟩
    ∧ j + 2 ≠ i + 2 := by
  have hmap : existingMapAux ((schemaKeys ++ [idCol]).indexOf idCol) 0 data_rows k =
      some (j + 2) := by
    have := existingMapAux_last ((schemaKeys ++ [idCol]).indexOf idCol) data_rows k j 0 hj
      hidJ hlast
    simpa using this
  refine ⟨hmap, ?_, by omega⟩
  simp only [SyncPy.sync_notion_to_sheets, if_pos rfl, List.foldl_cons, List.foldl_nil]
  simp [SyncPy.pageStep, SyncPy.classifyPage, hfmt, hpid, hmap, initRunState, stats0]

/-- Witness for C10: two data rows both carrying the id "k1"; the single
fetched record with that id yields exactly one update, at sheet row 3 (the
second duplicate), and row 2 receives no write. -/
theorem duplicate_ids_last_row_wins_witness :
    existingMapAux ((["Title"] ++ ["PID"]).indexOf "PID") 0 [["a", "k1"], ["b", "k1"]] "k1" =
      some 3
    ∧ SyncPy.sync_notion_to_sheets ["Title"] "PID"
        [["Title", "PID"], ["a", "k1"], ["b", "k1"]] [witPageDup] =
        .ok ⟨⟨1, 0, 0⟩, [(3, ["A", "k1"])], []⟩
    ∧ (1 : Nat) + 2 ≠ 0 + 2 :=
  duplicate_ids_last_row_wins ["Title"] "PID" [["a", "k1"], ["b", "k1"]] 0 1 "k1" witPageDup
    ["A", "k1"] (by decide) (by decide) (by decide) (by decide)
    (fun l h1 h2 => absurd h2 (by simp; omega)) rfl rfl

theorem classifyPage_upd_inv (existing : String → Option Nat) (headers : List String)
    (idCol : String) (p : JVal) (r : Nat) (rd : List String)
    (hc : SyncPy.classifyPage existing headers idCol p = .upd r rd) :
    SyncPy.format_notion_page_for_sheet p headers idCol = .ok rd
    ∧ ∃ s, pageIdKey p = some s ∧ existing s = some r := by
  unfold SyncPy.classifyPage at hc
  cases hfmt : SyncPy.format_notion_page_for_sheet p headers idCol with
  | error e => rw [hfmt] at hc; cases hc
  | ok rd0 =>
    rw [hfmt] at hc
    dsimp only at hc
    cases hkey : pageIdKey p with
    | none => rw [hkey] at hc; cases hc
    | some s =>
      rw [hkey] at hc
      dsimp only at hc
      cases hes : existing s with
      | none => rw [hes] at hc; cases hc
      | some r0 =>
        rw [hes] at hc
        dsimp only at hc
        injection hc with h1 h2
        subst h1
        subst h2
        exact ⟨rfl, s, rfl, hes⟩

theorem classifyPage_cre_inv (existing : String → Option Nat) (headers : List String)
    (idCol : String) (p : JVal) (rd : List String)
    (hc : SyncPy.classifyPage existing headers idCol p = .cre rd) :
    SyncPy.format_notion_page_for_sheet p headers idCol = .ok rd
    ∧ (pageIdKey p = none ∨ ∃ s, pageIdKey p = some s ∧ existing s = none) := by
  unfold SyncPy.classifyPage at hc
  cases hfmt : SyncPy.format_notion_page_for_sheet p headers idCol with
  | error e => rw [hfmt] at hc; cases hc
  | ok rd0 =>
    rw [hfmt] at hc
    dsimp only at hc
    cases hkey : pageIdKey p with
    | none =>
      rw [hkey] at hc
      dsimp only at hc
      injection hc with h1
      subst h1
      exact ⟨rfl, Or.inl rfl⟩
    | some s =>
      rw [hkey] at hc
      dsimp only at hc
      cases hes : existing s with
      | none =>
        rw [hes] at hc
        dsimp only at hc
        injection hc with h1
        subst h1
        exact ⟨rfl, Or.inr ⟨s, rfl, hes⟩⟩
      | some r0 => rw [hes] at hc; cases hc

theorem classifyPage_ok_of_isSome (existing : String → Option Nat) (headers : List String)
    (idCol : String) (p : JVal) (rd : List String) (s : String)
    (hfmt : SyncPy.format_notion_page_for_sheet p headers idCol = .ok rd)
    (hkey : pageIdKey p = some s) (hsome : (existing s).isSome = true) :
    ∀ rd2, SyncPy.classifyPage existing headers idCol p ≠ .cre rd2 := by
  intro rd2 hc
  obtain ⟨hfmt2, hor⟩ := classifyPage_cre_inv existing headers idCol p rd2 hc
  rcases hor with hnone | ⟨s2, hs2, hes2⟩
  · rw [hkey] at hnone; cases hnone
  · rw [hkey] at hs2
    injection hs2 with hss
    subst hss
    rw [hes2] at hsome
    cases hsome

theorem appendBatch_fold_mono (existing : String → Option Nat) (headers : List String)
    (idCol : String) (pages : List JVal) (st : RunState) (x : List String)
    (hx : x ∈ st.appendBatch) :
    x ∈ (pages.foldl (SyncPy.pageStep existing headers idCol) st).appendBatch := by
  induction pages generalizing st with
  | nil => exact hx
  | cons hd tl ih =>
    rw [List.foldl_cons]
    apply ih
    unfold SyncPy.pageStep
    cases SyncPy.classifyPage existing headers idCol hd with
    | err => exact hx
    | upd r rd => exact hx
    | cre rd => simp only [List.mem_append]; exact Or.inl hx

theorem cre_mem_appendBatch_fold (existing : String → Option Nat) (headers : List String)
    (idCol : String) (pages : List JVal) (st : RunState) (p : JVal) (rd : List String)
    (hp : p ∈ pages) (hc : SyncPy.classifyPage existing headers idCol p = .cre rd) :
    rd ∈ (pages.foldl (SyncPy.pageStep existing headers idCol) st).appendBatch := by
  induction pages generalizing st with
  | nil => cases hp
  | cons hd tl ih =>
    rw [List.foldl_cons]
    rcases List.mem_cons.mp hp with hphd | hptl
    · subst hphd
      apply appendBatch_fold_mono
      unfold SyncPy.pageStep
      rw [hc]
      simp
    · exact ih _ hptl

theorem mem_updateBatch_fold (existing : String → Option Nat) (headers : List String)
    (idCol : String) (pages : List JVal) (st : RunState) (u : Nat × List String)
    (hu : u ∈ (pages.foldl (SyncPy.pageStep existing headers idCol) st).updateBatch) :
    u ∈ st.updateBatch
    ∨ ∃ p ∈ pages, SyncPy.classifyPage existing headers idCol p = .upd u.1 u.2 := by
  induction pages generalizing st with
  | nil => exact Or.inl hu
  | cons hd tl ih =>
    rw [List.foldl_cons] at hu
    rcases ih _ hu with hin | ⟨p, hp, hcp⟩
    · unfold SyncPy.pageStep at hin
      cases hc : SyncPy.classifyPage existing headers idCol hd with
      | err => rw [hc] at hin; exact Or.inl hin
      | upd r rd =>
        rw [hc] at hin
        simp only [List.mem_append, List.mem_singleton] at hin
        rcases hin with hin | hin
        · exact Or.inl hin
        · subst hin
          exact Or.inr ⟨hd, List.mem_cons_self _ _, hc⟩
      | cre rd => rw [hc] at hin; exact Or.inl hin
    · exact Or.inr ⟨p, List.mem_cons_of_mem _ hp, hcp⟩

theorem pageFold_all_matched (existing : String → Option Nat) (headers : List String)
    (idCol : String) (pages : List JVal) (st : RunState)
    (h : ∀ p ∈ pages, ∀ rd, SyncPy.classifyPage existing headers idCol p ≠ .cre rd) :
    (pages.foldl (SyncPy.pageStep existing headers idCol) st).stats.created = st.stats.created
    ∧ (pages.foldl (SyncPy.pageStep existing headers idCol) st).stats.updated =
        st.stats.updated + pages.countP (fun p => !(pageFails headers idCol p))
    ∧ (pages.foldl (SyncPy.pageStep existing headers idCol) st).stats.errors =
        st.stats.errors + pages.countP (pageFails headers idCol) := by
  induction pages generalizing st with
  | nil => simp
  | cons hd tl ih =>
    simp only [List.foldl_cons, List.countP_cons]
    have htl : ∀ p ∈ tl, ∀ rd, SyncPy.classifyPage existing headers idCol p ≠ .cre rd :=
      fun p hp => h p (List.mem_cons_of_mem _ hp)
    cases hc : SyncPy.classifyPage existing headers idCol hd with
    | err =>
      have hf : pageFails headers idCol hd = true :=
        (classifyPage_err_iff existing headers idCol hd).mp hc
      obtain ⟨h1, h2, h3⟩ := ih
        { st with stats := { st.stats with errors := st.stats.errors + 1 } } htl
      refine ⟨?_, ?_, ?_⟩ <;>
        · simp only [SyncPy.pageStep, hc]
          simp [h1, h2, h3, hf] <;> omega
    | upd r rd =>
      have hf : pageFails headers idCol hd = false :=
        classifyPage_not_err existing headers idCol hd (by simp [hc])
      obtain ⟨h1, h2, h3⟩ := ih
        { st with
          updateBatch := st.updateBatch ++ [(r, rd)]
          stats := { st.stats with updated := st.stats.updated + 1 } } htl
      refine ⟨?_, ?_, ?_⟩ <;>
        · simp only [SyncPy.pageStep, hc]
          simp [h1, h2, h3, hf] <;> omega
    | cre rd => exact absurd hc (h hd (List.mem_cons_self _ _) rd)

theorem existingMapAux_isSome_of (idIdx : Nat) (rows : List (List String)) (k : String)
    (i j : Nat) (hj : j < rows.length)
    (hid : rowIdAt idIdx (rows.getD j []) = some k) :
    (existingMapAux idIdx i rows k).isSome = true := by
  induction rows generalizing i j with
  | nil => simp at hj
  | cons row rest ih =>
    cases hr : existingMapAux idIdx (i + 1) rest k with
    | some r => simp [existingMapAux, hr]
    | none =>
      cases j with
      | zero =>
        have hrow : rowIdAt idIdx row = some k := by simpa using hid
        simp [existingMapAux, hr, hrow]
      | succ j' =>
        have hid' : rowIdAt idIdx (rest.getD j' []) = some k := by simpa using hid
        have := ih (i + 1) j' (by simpa using hj) hid'
        rw [hr] at this
        cases this

theorem existingMapAux_eq_some (idIdx : Nat) (rows : List (List String)) (k : String)
    (i r : Nat) (h : existingMapAux idIdx i rows k = some r) :
    ∃ j, j < rows.length ∧ rowIdAt idIdx (rows.getD j []) = some k ∧ r = i + j + 2 := by
  induction rows generalizing i with
  | nil => cases h
  | cons row rest ih =>
    cases hr : existingMapAux idIdx (i + 1) rest k with
    | some r0 =>
      simp only [existingMapAux, hr] at h
      injection h with h1
      subst h1
      obtain ⟨j', hj', hid', hr'⟩ := ih (i + 1) hr
      exact ⟨j' + 1, by simpa using hj', by simpa using hid', by omega⟩
    | none =>
      simp only [existingMapAux, hr] at h
      by_cases hrow : rowIdAt idIdx row = some k
      · rw [if_pos hrow] at h
        injection h with h1
        exact ⟨0, by simp, by simpa using hrow, by omega⟩
      · rw [if_neg hrow] at h
        cases h

theorem rowIdAt_eq_some_inv (idIdx : Nat) (row : List String) (k : String)
    (h : rowIdAt idIdx row = some k) :
    idIdx < row.length ∧ row.getD idIdx "" = k ∧ k ≠ "" := by
  by_cases hc : idIdx < row.length ∧ row.getD idIdx "" ≠ ""
  · rw [rowIdAt, if_pos hc] at h
    have hk := Option.some.inj h
    exact ⟨hc.1, hk, hk ▸ hc.2⟩
  · rw [rowIdAt, if_neg hc] at h
    cases h

theorem rowIdAt_eq_some_of (idIdx : Nat) (row : List String) (k : String)
    (h1 : idIdx < row.length) (h2 : row.getD idIdx "" = k) (h3 : k ≠ "") :
    rowIdAt idIdx row = some k := by
  rw [rowIdAt, if_pos ⟨h1, h2 ▸ h3⟩, h2]

theorem writeRow_length (rows : List (List String)) (n : Nat) (rd : List String) :
    (writeRow rows n rd).length = rows.length := by
  induction rows generalizing n with
  | nil => cases n <;> rfl
  | cons r rs ih =>
    rcases n with _ | _ | n
    · rfl
    · rfl
    · simp only [writeRow, List.length_cons, ih]

theorem writeRow_getD_ne (rows : List (List String)) (n : Nat) (rd : List String) (j : Nat)
    (h : j + 1 ≠ n) : (writeRow rows n rd).getD j [] = rows.getD j [] := by
  induction rows generalizing n j with
  | nil => cases n <;> rfl
  | cons r rs ih =>
    rcases n with _ | _ | n
    · rfl
    · rcases j with _ | j
      · omega
      · rfl
    · rcases j with _ | j
      · rfl
      · show (writeRow rs (n + 1) rd).getD j [] = rs.getD j []
        exact ih (n + 1) j (by omega)

theorem writeRow_getD_self (rows : List (List String)) (j : Nat) (rd : List String)
    (hj : j < rows.length) :
    (writeRow rows (j + 1) rd).getD j [] = overwriteRow (rows.getD j []) rd := by
  induction rows generalizing j with
  | nil => simp at hj
  | cons r rs ih =>
    rcases j with _ | j
    · rfl
    · show (writeRow rs (j + 1) rd).getD j [] = overwriteRow (rs.getD j []) rd
      exact ih j (by simpa using hj)

theorem rowIdAt_overwriteRow (idIdx : Nat) (old new : List String) (k : String)
    (hlen : idIdx < new.length)
    (hval : new.getD idIdx "" = k) (hk : k ≠ "") :
    rowIdAt idIdx (overwriteRow old new) = some k := by
  apply rowIdAt_eq_some_of
  · unfold overwriteRow
    rw [List.length_append]
    omega
  · unfold overwriteRow
    rw [List.getD_append _ _ _ _ hlen]
    exact hval
  · exact hk

theorem foldWrites_rowId (idIdx : Nat) (ub : List (Nat × List String))
    (sheet : List (List String))
    (hub : ∀ u ∈ ub, 2 ≤ u.1 ∧ idIdx < u.2.length ∧
      rowIdAt idIdx (sheet.getD (u.1 - 1) []) = some (u.2.getD idIdx "")) (i : Nat) :
    rowIdAt idIdx ((ub.foldl (fun rows u => writeRow rows u.1 u.2) sheet).getD i []) =
      rowIdAt idIdx (sheet.getD i []) := by
  induction ub generalizing sheet with
  | nil => rfl
  | cons u ub' ih =>
    obtain ⟨hu1, hu2, hu3⟩ := hub u (List.mem_cons_self _ _)
    have hstep : ∀ i2, rowIdAt idIdx ((writeRow sheet u.1 u.2).getD i2 []) =
        rowIdAt idIdx (sheet.getD i2 []) := by
      intro i2
      by_cases hi2 : i2 + 1 = u.1
      · obtain ⟨hlt, hval, hne⟩ := rowIdAt_eq_some_inv _ _ _ hu3
        have hrange : u.1 - 1 < sheet.length := by
          by_contra hout
          rw [List.getD_eq_default _ _ (by omega)] at hu3
          exact absurd (rowIdAt_eq_some_inv _ _ _ hu3).1 (by simp)
        have hw : u.1 - 1 + 1 = u.1 := by omega
        have hgoal := writeRow_getD_self sheet (u.1 - 1) u.2 hrange
        rw [hw] at hgoal
        have hi2e : i2 = u.1 - 1 := by omega
        rw [hi2e, hgoal, hu3]
        exact rowIdAt_overwriteRow idIdx _ u.2 _ hu2 rfl hne
      · rw [writeRow_getD_ne _ _ _ _ hi2]
    rw [List.foldl_cons]
    rw [ih (writeRow sheet u.1 u.2) ?_]
    · exact hstep i
    · intro v hv
      obtain ⟨hv1, hv2, hv3⟩ := hub v (List.mem_cons_of_mem _ hv)
      exact ⟨hv1, hv2, by rw [hstep]; exact hv3⟩

theorem getD_indexOf_self (l : List String) (a : String) (ha : a ∈ l) :
    l.indexOf a < l.length ∧ l.getD (l.indexOf a) "" = a := by
  induction l with
  | nil => cases ha
  | cons b t ih =>
    by_cases hb : b = a
    · subst hb
      simp [List.indexOf_cons]
    · have hbe : (b == a) = false := beq_eq_false_iff_ne.mpr hb
      have hat : a ∈ t := by
        rcases List.mem_cons.mp ha with h | h
        · exact absurd h.symm hb
        · exact h
      obtain ⟨ih1, ih2⟩ := ih hat
      constructor
      · simp only [List.indexOf_cons, hbe, cond_false, List.length_cons]
        omega
      · simp only [List.indexOf_cons, hbe, cond_false]
        simpa using ih2

theorem getD_map_lt (f : String → String) (l : List String) (i : Nat) (hi : i < l.length) :
    (l.map f).getD i "" = f (l.getD i "") := by
  induction l generalizing i with
  | nil => simp at hi
  | cons b t ih =>
    cases i with
    | zero => rfl
    | succ i' =>
      show (t.map f).getD i' "" = f (t.getD i' "")
      exact ih i' (by simpa using hi)

theorem formatPageWith_idCell (ex : JVal → Except Unit String) (page : JVal)
    (headers : List String) (idCol : String) (rd : List String) (s : String)
    (hfmt : formatPageWith ex page headers idCol = .ok rd)
    (hkey : pageIdKey page = some s) (hmem : idCol ∈ headers) :
    rd.length = headers.length ∧ rd.getD (headers.indexOf idCol) "" = s := by
  unfold formatPageWith at hfmt
  unfold pageIdKey at hkey
  cases hprops : jget page "properties" with
  | none => rw [hprops] at hfmt; cases hfmt
  | some pv =>
    rw [hprops] at hfmt
    cases pv with
    | obj kvs =>
      dsimp only at hfmt
      cases hrow : extractRowDictAux ex kvs [] with
      | error e => rw [hrow] at hfmt; cases hfmt
      | ok row0 =>
        rw [hrow] at hfmt
        dsimp only at hfmt
        cases hidv : jget page "id" with
        | none => rw [hidv] at hfmt; cases hfmt
        | some v =>
          rw [hidv] at hfmt
          dsimp only at hfmt
          rw [hidv] at hkey
          cases v with
          | str s0 =>
            dsimp only at hkey
            injection hkey with hss
            subst hss
            injection hfmt with hrd
            constructor
            · rw [← hrd]
              simp
            · rw [← hrd]
              obtain ⟨hlt, hget⟩ := getD_indexOf_self headers idCol hmem
              rw [getD_map_lt _ _ _ hlt, hget]
              show ((setItem row0 idCol (strOrPyStr (JVal.str s0))).lookup idCol).getD "" = _
              rw [lookup_setItem_self]
              rfl
          | null => dsimp only at hkey; cases hkey
          | bool b => dsimp only at hkey; cases hkey
          | int n => dsimp only at hkey; cases hkey
          | float q => dsimp only at hkey; cases hkey
          | arr xs => dsimp only at hkey; cases hkey
          | obj kvs2 => dsimp only at hkey; cases hkey
    | null => cases hfmt
    | bool b => cases hfmt
    | str s2 => cases hfmt
    | int n => cases hfmt
    | float q => cases hfmt
    | arr xs => cases hfmt

theorem foldWrites_length (ub : List (Nat × List String)) (sheet : List (List String)) :
    (ub.foldl (fun rows u => writeRow rows u.1 u.2) sheet).length = sheet.length := by
  induction ub generalizing sheet with
  | nil => rfl
  | cons u ub' ih => rw [List.foldl_cons, ih, writeRow_length]

theorem foldWrites_getD_zero (ub : List (Nat × List String)) (sheet : List (List String))
    (hub : ∀ u ∈ ub, 2 ≤ u.1) :
    (ub.foldl (fun rows u => writeRow rows u.1 u.2) sheet).getD 0 [] = sheet.getD 0 [] := by
  induction ub generalizing sheet with
  | nil => rfl
  | cons u ub' ih =>
    rw [List.foldl_cons, ih _ (fun v hv => hub v (List.mem_cons_of_mem _ hv))]
    exact writeRow_getD_ne _ _ _ _ (by have := hub u (List.mem_cons_self _ _); omega)

/-- C8: idempotence of the src/sync.py document→table sync.  If a run over
a sheet succeeds (producing counters and the two write batches), then —
provided every successfully formatted page carries a non-empty string id,
as Notion ids always are — running the same sync again over the written
sheet (updates applied in place, new rows appended) counts no record as
created: every record created by the first run is reclassified as updated,
updated records stay updated, and the error count is unchanged. -/
theorem sync_notion_to_sheets_idempotent (schemaKeys : List String) (idCol : String)
    (sheet_data : List (List String)) (pages : List JVal) (st1 : RunState)
    (h1 : SyncPy.sync_notion_to_sheets schemaKeys idCol sheet_data pages = .ok st1)
    (hids : ∀ p ∈ pages, ∀ rd,
      SyncPy.format_notion_page_for_sheet p (schemaKeys ++ [idCol]) idCol = .ok rd →
      ∃ s, pageIdKey p = some s ∧ s ≠ "") :
    ∃ st2, SyncPy.sync_notion_to_sheets schemaKeys idCol
        (applySheetWrites sheet_data st1) pages = .ok st2
      ∧ st2.stats.created = 0
      ∧ st2.stats.updated = st1.stats.created + st1.stats.updated
      ∧ st2.stats.errors = st1.stats.errors := by
  rcases sheet_data with _ | ⟨sh, data⟩
  · unfold SyncPy.sync_notion_to_sheets at h1
    cases h1
  by_cases hsh : sh = schemaKeys ++ [idCol]
  case neg =>
    unfold SyncPy.sync_notion_to_sheets at h1
    dsimp only at h1
    rw [if_neg hsh] at h1
    cases h1
  case pos =>
    subst hsh
    unfold SyncPy.sync_notion_to_sheets at h1
    dsimp only at h1
    rw [if_pos rfl] at h1
    injection h1 with hst1
    subst hst1
    set headers := schemaKeys ++ [idCol] with hheaders
    set idx := headers.indexOf idCol with hidx
    set existing1 := existingMapAux idx 0 data with hex1
    set st1 := pages.foldl (SyncPy.pageStep existing1 headers idCol) initRunState with hst1
    have hmemid : idCol ∈ headers := by rw [hheaders]; simp
    have hidxlt := getD_indexOf_self headers idCol hmemid
    have hub : ∀ u ∈ st1.updateBatch, 2 ≤ u.1 ∧ idx < u.2.length ∧
        rowIdAt idx ((headers :: data).getD (u.1 - 1) []) = some (u.2.getD idx "") := by
      intro u hu
      rcases mem_updateBatch_fold existing1 headers idCol pages initRunState u
        (by rw [← hst1]; exact hu) with hin | ⟨p, hp, hcp⟩
      · simp [initRunState] at hin
      · obtain ⟨hfmt, s, hkey, hes⟩ := classifyPage_upd_inv existing1 headers idCol p u.1 u.2 hcp
        obtain ⟨j, hj, hidj, hr⟩ := existingMapAux_eq_some idx data s 0 u.1
          (by rw [← hex1]; exact hes)
        obtain ⟨hlen_rd, hcell⟩ := formatPageWith_idCell SyncPy.extract_value_from_prop
          p headers idCol u.2 s hfmt hkey hmemid
        refine ⟨by omega, by rw [hlen_rd]; exact hidxlt.1, ?_⟩
        have hgd : (headers :: data).getD (u.1 - 1) [] = data.getD j [] := by
          have hup : u.1 - 1 = j + 1 := by omega
          rw [hup]
          simp
        rw [hgd, hidj, hcell]
    have hub2 : ∀ u ∈ st1.updateBatch, 2 ≤ u.1 := fun u hu => (hub u hu).1
    have hS'len : (st1.updateBatch.foldl (fun rows u => writeRow rows u.1 u.2)
        (headers :: data)).length = data.length + 1 := by
      rw [foldWrites_length]
      simp
    have hS'0 : (st1.updateBatch.foldl (fun rows u => writeRow rows u.1 u.2)
        (headers :: data)).getD 0 [] = headers := by
      rw [foldWrites_getD_zero _ _ hub2]
      rfl
    obtain ⟨h0, t0, hS'eq⟩ : ∃ h0 t0,
        st1.updateBatch.foldl (fun rows u => writeRow rows u.1 u.2) (headers :: data) =
          h0 :: t0 := by
      cases hS2 : st1.updateBatch.foldl (fun rows u => writeRow rows u.1 u.2)
        (headers :: data) with
      | nil => rw [hS2] at hS'len; simp at hS'len
      | cons a b => exact ⟨a, b, rfl⟩
    have hh0 : h0 = headers := by
      rw [hS'eq] at hS'0
      simpa using hS'0
    have ht0len : t0.length = data.length := by
      rw [hS'eq] at hS'len
      simpa using hS'len
    have happly : applySheetWrites (headers :: data) st1 =
        headers :: (t0 ++ st1.appendBatch) := by
      unfold applySheetWrites
      rw [hS'eq, hh0]
      rfl
    have hpres : ∀ j, rowIdAt idx (t0.getD j []) = rowIdAt idx (data.getD j []) := by
      intro j
      have hthis := foldWrites_rowId idx st1.updateBatch (headers :: data) hub (j + 1)
      rw [hS'eq] at hthis
      simpa using hthis
    have hmatch : ∀ p ∈ pages, ∀ rd,
        SyncPy.classifyPage (existingMapAux idx 0 (t0 ++ st1.appendBatch)) headers idCol p ≠
          .cre rd := by
      intro p hp
      cases hc1 : SyncPy.classifyPage existing1 headers idCol p with
      | err =>
        have hf : pageFails headers idCol p = true :=
          (classifyPage_err_iff existing1 headers idCol p).mp hc1
        intro rd hc2
        obtain ⟨hfmt2, _⟩ := classifyPage_cre_inv _ headers idCol p rd hc2
        unfold pageFails at hf
        rw [hfmt2] at hf
        simp at hf
      | upd r rd1 =>
        obtain ⟨hfmt1, s, hkey, hes⟩ := classifyPage_upd_inv existing1 headers idCol p r rd1 hc1
        obtain ⟨j, hj, hidj, hr⟩ := existingMapAux_eq_some idx data s 0 r
          (by rw [← hex1]; exact hes)
        have hjt0 : j < t0.length := by omega
        have hj2 : rowIdAt idx ((t0 ++ st1.appendBatch).getD j []) = some s := by
          rw [List.getD_append _ _ _ _ hjt0, hpres j]
          exact hidj
        have hsome := existingMapAux_isSome_of idx (t0 ++ st1.appendBatch) s 0 j
          (by rw [List.length_append]; omega) hj2
        exact classifyPage_ok_of_isSome _ headers idCol p rd1 s hfmt1 hkey hsome
      | cre rd1 =>
        obtain ⟨hfmt1, _⟩ := classifyPage_cre_inv existing1 headers idCol p rd1 hc1
        obtain ⟨s, hkey, hsne⟩ := hids p hp rd1 hfmt1
        have hmem : rd1 ∈ st1.appendBatch := by
          rw [hst1]
          exact cre_mem_appendBatch_fold existing1 headers idCol pages initRunState p rd1 hp hc1
        obtain ⟨j0, hj0lt, hj0⟩ := List.mem_iff_getElem.mp hmem
        obtain ⟨hlen_rd, hcell⟩ := formatPageWith_idCell SyncPy.extract_value_from_prop
          p headers idCol rd1 s hfmt1 hkey hmemid
        have hrowid : rowIdAt idx rd1 = some s :=
          rowIdAt_eq_some_of _ _ _ (by rw [hlen_rd]; exact hidxlt.1) hcell hsne
        have hj2 : rowIdAt idx ((t0 ++ st1.appendBatch).getD (t0.length + j0) []) = some s := by
          rw [List.getD_append_right _ _ _ _ (by omega)]
          have hsub : t0.length + j0 - t0.length = j0 := by omega
          rw [hsub, List.getD_eq_getElem _ _ hj0lt, hj0]
          exact hrowid
        have hsome := existingMapAux_isSome_of idx (t0 ++ st1.appendBatch) s 0
          (t0.length + j0) (by rw [List.length_append]; omega) hj2
        exact classifyPage_ok_of_isSome _ headers idCol p rd1 s hfmt1 hkey hsome
    obtain ⟨hc2, hu2, he2⟩ := pageFold_all_matched
      (existingMapAux idx 0 (t0 ++ st1.appendBatch)) headers idCol pages initRunState hmatch
    obtain ⟨e1, uc1, _⟩ := pageFold_counts existing1 headers idCol pages initRunState
    refine ⟨pages.foldl (SyncPy.pageStep (existingMapAux idx 0 (t0 ++ st1.appendBatch))
        headers idCol) initRunState, ?_, ?_, ?_, ?_⟩
    · rw [happly]
      simp [SyncPy.sync_notion_to_sheets, hheaders, hidx]
    · rw [hc2]
      simp [initRunState, stats0]
    · rw [hu2, hst1]
      simp [initRunState, stats0] at uc1 ⊢
      omega
    · rw [he2, hst1]
      simp [initRunState, stats0] at e1 ⊢
      omega

/-- Witness for C8: a one-page sync against an empty sheet creates the
page on the first run; on the second run, over the sheet with the appended
row, the page is reclassified as updated and nothing is created. -/
theorem sync_notion_to_sheets_idempotent_witness :
    ∃ st2, SyncPy.sync_notion_to_sheets ["Title"] "PID"
        (applySheetWrites [["Title", "PID"]] ⟨⟨0, 1, 0⟩, [], [["A", "p0"]]⟩) [witPage 0] =
          .ok st2
      ∧ st2.stats.created = 0 ∧ st2.stats.updated = 1 ∧ st2.stats.errors = 0 := by
  have h := sync_notion_to_sheets_idempotent ["Title"] "PID" [["Title", "PID"]] [witPage 0]
    ⟨⟨0, 1, 0⟩, [], [["A", "p0"]]⟩ (by rfl) ?hids
  case hids =>
    intro p hp rd hfmt
    rw [List.mem_singleton] at hp
    subst hp
    exact ⟨"p0", rfl, by decide⟩
  exact h
